import Mathlib

/-!
# Verification of the Partly product-enrichment pipeline

A shallow embedding, in Lean 4, of the TypeScript sources of the
Partly_MVP_V1 repository (discovery, crawl, HTML extraction, PDF
extraction, normalization, synthesis post-processing and the pipeline
driver), together with proofs and refutations of the specified
properties.

Modelling conventions:
* JavaScript strings are modelled as `List Char` (`Str`); the handful of
  regular expressions appearing in the sources are compiled by hand into
  explicit character-level scanners, each documented at its definition.
* JavaScript numbers are modelled as exact rationals (`ℚ`).  All
  concrete inputs used in counterexamples are chosen far away from
  binary-floating-point boundary effects, so each refutation also holds
  for the IEEE-754 arithmetic of the running program.
* Network, filesystem, browser and LLM effects are passed in as explicit
  oracle parameters (e.g. the result of `fetch`, the parsed JSON of a
  cached datasheet, the parsed JSON an LLM returned); everything the
  repository computes itself is modelled as executable Lean code.
* JavaScript objects used as string-keyed maps (`Record<string,string>`
  etc.) are modelled as association lists in insertion order, with the
  JavaScript assignment semantics (overwrite in place, append if new).
-/

namespace Partly

/-- JavaScript strings, modelled as lists of characters. -/
abbrev Str := List Char

/-- The JavaScript `\s` (whitespace) character class, as used by
`String.prototype.trim`, `\s` in regexes, etc.
(space, tab, LF, VT, FF, CR, NBSP, Ogham space, U+2000-U+200A, LS, PS,
NNBSP, MMSP, ideographic space, BOM). -/
def isJsSpace (c : Char) : Bool :=
  c.val = 0x20 ∨ c.val = 0x09 ∨ c.val = 0x0a ∨ c.val = 0x0b ∨
  c.val = 0x0c ∨ c.val = 0x0d ∨ c.val = 0xa0 ∨ c.val = 0x1680 ∨
  (0x2000 ≤ c.val ∧ c.val ≤ 0x200a) ∨ c.val = 0x2028 ∨ c.val = 0x2029 ∨
  c.val = 0x202f ∨ c.val = 0x205f ∨ c.val = 0x3000 ∨ c.val = 0xfeff

/-- JavaScript line terminators (the characters `.` does not match). -/
def isLineTerm (c : Char) : Bool :=
  c.val = 0x0a ∨ c.val = 0x0d ∨ c.val = 0x2028 ∨ c.val = 0x2029

/-- JavaScript word characters (`\w`), used by `\b` boundaries. -/
def isWordCh (c : Char) : Bool :=
  c.isAlpha ∨ c.isDigit ∨ c = '_'

/-- `String.prototype.toLowerCase` restricted to ASCII (all strings the
sources lowercase are ASCII). -/
def jsLower (s : Str) : Str := s.map Char.toLower

/-- `String.prototype.toUpperCase` restricted to ASCII. -/
def jsUpper (s : Str) : Str := s.map Char.toUpper

/-- `String.prototype.trim` (strips JS whitespace on both ends). -/
def jsTrim (s : Str) : Str :=
  ((s.dropWhile isJsSpace).reverse.dropWhile isJsSpace).reverse

/-- Does `pat` occur at the front of `s`?  (`String.prototype.startsWith`.) -/
def startsW (s pat : Str) : Bool := pat.isPrefixOf s

/-- Does `pat` occur at the end of `s`?  (`String.prototype.endsWith`.) -/
def endsW (s pat : Str) : Bool := pat.isSuffixOf s

/-- Does `pat` occur anywhere in `s`?  (`String.prototype.includes`.) -/
def containsSub (s pat : Str) : Bool :=
  match s with
  | [] => pat.isPrefixOf ([] : Str)
  | _ :: rest => pat.isPrefixOf s || containsSub rest pat

/-- Count the non-overlapping, leftmost-first occurrences of a literal
pattern, i.e. `(s.match(/pat/g) ?? []).length` for a pattern with no
metacharacters.  `fuel` is an upper bound on the scan length; it is
always called with `fuel = s.length`, which suffices because every step
consumes at least one character. -/
def countSubF (fuel : Nat) (s pat : Str) : Nat :=
  match fuel with
  | 0 => 0
  | fuel + 1 =>
    match s with
    | [] => 0
    | _ :: rest =>
      if pat.isPrefixOf s ∧ pat ≠ [] then
        1 + countSubF fuel (s.drop pat.length) pat
      else
        countSubF fuel rest pat

def countSub (s pat : Str) : Nat := countSubF s.length s pat

/-! ### The MPN-like-token counter of `hasUsableProductSignals`

`(lower.match(/\b[0-9a-z\-]{6,}\b/g)?.length ?? 0)`: a JS global regex
scan.  A match at position `i` needs a word boundary, then a maximal-
with-backtracking run of at least six characters from `[0-9a-z-]`, then
a word boundary; the scan resumes after the match. -/

/-- Characters of the class `[0-9a-z\-]`. -/
def isMpnTokCh (c : Char) : Bool :=
  c.isDigit ∨ (c.isLower ∧ c.isAlpha) ∨ c = '-'

/-- Is there a `\b` boundary between an optional previous character and
an optional next character (out of range counts as non-word)? -/
def wordBoundary (prev next : Option Char) : Bool :=
  (match prev with | none => false | some c => isWordCh c) ≠
  (match next with | none => false | some c => isWordCh c)

/-- Largest `j` with `6 ≤ j ≤ hi` such that a `\b` boundary holds after
`j` characters of `l` (greedy backtracking of `{6,}` against the final
`\b`).  Returns the match length. -/
def mpnTokBacktrack (l : Str) (hi : Nat) : Option Nat :=
  match hi with
  | 0 => none
  | j + 1 =>
    if j + 1 ≥ 6 ∧ wordBoundary (l.get? j) (l.get? (j + 1)) then
      some (j + 1)
    else
      mpnTokBacktrack l j

/-- Try to match `\b[0-9a-z\-]{6,}\b` at the head of `l`, where `prev`
is the character just before `l`.  Returns the matched length. -/
def mpnTokMatch (prev : Option Char) (l : Str) : Option Nat :=
  match l with
  | [] => none
  | c :: _ =>
    if wordBoundary prev (some c) then
      mpnTokBacktrack l (l.takeWhile isMpnTokCh).length
    else
      none

/-- The global scan: count non-overlapping matches. -/
def mpnTokCountF (fuel : Nat) (prev : Option Char) (l : Str) : Nat :=
  match fuel with
  | 0 => 0
  | fuel + 1 =>
    match l with
    | [] => 0
    | c :: rest =>
      match mpnTokMatch prev l with
      | some j => 1 + mpnTokCountF fuel (l.get? (j - 1)) (l.drop j)
      | none => mpnTokCountF fuel (some c) rest

def mpnTokCount (l : Str) : Nat := mpnTokCountF l.length none l

/-- `/<h1[^>]*>/.test(lower)`: an occurrence of `<h1` followed (possibly
after non-`>` characters) by a `>`. -/
def hasH1Tag (s : Str) : Bool :=
  match s with
  | [] => false
  | _ :: rest =>
    (startsW s "<h1".toList ∧ (s.drop 3).dropWhile (· ≠ '>') ≠ []) ||
    hasH1Tag rest

/-!
## Crawler (`services/crawlService.ts`)

`fetch` and the Playwright browser are effects; they enter as oracles:
* `fetchO i` is what the `i`-th `fetch` attempt produced — `none` for a
  network error / timeout / non-ok status, `some r` for an ok response
  with body `r.html`, final URL `r.finalUrl` and content type header.
* `pw` is the outcome of the Playwright navigation: `none` when
  `page.goto` throws, `some page` when it yields rendered content.
-/

structure FetchResponse where
  html : Str
  finalUrl : Str
  contentType : Option Str
  deriving Repr, DecidableEq

structure PwPage where
  html : Str
  url : Str
  deriving Repr, DecidableEq

inductive FallbackReason
  | fetch_failed | invalid_html | non_product | captcha_or_js
  deriving Repr, DecidableEq

inductive ConfLevel
  | high | medium | low
  deriving Repr, DecidableEq

structure CrawlResult where
  finalUrl : Str
  html : Option Str
  usedPlaywright : Bool
  contentType : Option Str
  fallbackReason : Option FallbackReason := none
  crawlConfidence : Option ConfLevel := none
  deriving Repr, DecidableEq

/-- `isValidHtml` of `crawlService.ts`. -/
def isValidHtml (html : Str) : Bool :=
  if html = [] then false
  else if html.length < 1000 then false
  else if containsSub (jsLower html) "enable javascript".toList then false
  else if containsSub (jsLower html) "captcha".toList then false
  else true

/-- `isHomepageLike` of `crawlService.ts`. -/
def isHomepageLike (html : Str) : Bool :=
  let lower := jsLower html
  let navHeavy :=
    countSub lower "<nav".toList ≥ 2 ∨ countSub lower "class=\"nav".toList ≥ 2
  let productGridSignals :=
    containsSub lower "featured products".toList ∨
    containsSub lower "categories".toList ∨
    containsSub lower "shop by".toList ∨
    containsSub lower "our products".toList
  let multipleCards := countSub lower "product-card".toList ≥ 3
  navHeavy ∧ (productGridSignals ∨ multipleCards)

/-- `looksLikeProductPage` of `crawlService.ts`.  `/<title>/.test(lower)`
is a literal substring test. -/
def looksLikeProductPage (html : Str) : Bool :=
  if isHomepageLike html then false
  else
    let lower := jsLower html
    let hasTitle := hasH1Tag lower ∨ containsSub lower "<title>".toList
    let hasSpecs :=
      containsSub lower "specification".toList ∨
      containsSub lower "technical data".toList ∨
      containsSub lower "<table".toList ∨
      containsSub lower "<dl".toList
    let hasDatasheet :=
      containsSub lower ".pdf".toList ∧
      (containsSub lower "datasheet".toList ∨ containsSub lower "download".toList)
    hasTitle ∧ (hasSpecs ∨ hasDatasheet)

/-- `hasUsableProductSignals` of `crawlService.ts`. -/
def hasUsableProductSignals (html : Str) : Bool :=
  if html = [] then false
  else
    let lower := jsLower html
    let textDensityOk := html.length > 8000
    let hasSpecTable :=
      containsSub lower "<table".toList ∨ containsSub lower "<dl".toList
    let hasDatasheet :=
      containsSub lower ".pdf".toList ∧
      (containsSub lower "datasheet".toList ∨ containsSub lower "manual".toList)
    let repeatedMpn := mpnTokCount lower ≥ 5
    let strongSignal := hasSpecTable ∨ hasDatasheet ∨ repeatedMpn
    textDensityOk ∧ strongSignal

/-- `tryFetchOnce` of `crawlService.ts`: an attempt yields a response
only if the fetch succeeded and the body passes `isValidHtml`. -/
def tryFetchOnce (fetchO : Nat → Option FetchResponse) (attempt : Nat) :
    Option FetchResponse :=
  match fetchO attempt with
  | none => none
  | some r => if isValidHtml r.html then some r else none

/-- `crawlWithPlaywright` of `crawlService.ts`. -/
def crawlWithPlaywright (pw : Option PwPage) (url : Str)
    (fallbackReason : Option FallbackReason) : CrawlResult :=
  match pw with
  | none =>
    -- `page.goto` threw
    { finalUrl := url
      html := none
      usedPlaywright := true
      contentType := none
      fallbackReason := some (fallbackReason.getD .captcha_or_js)
      crawlConfidence := some .low }
  | some page =>
    if ¬ hasUsableProductSignals page.html then
      { finalUrl := page.url
        html := some page.html
        usedPlaywright := true
        contentType := some "text/html".toList
        fallbackReason := some .non_product
        crawlConfidence := some .low }
    else
      { finalUrl := page.url
        html := some page.html
        usedPlaywright := true
        contentType := some "text/html".toList
        fallbackReason := fallbackReason
        crawlConfidence :=
          if hasUsableProductSignals page.html then some .medium else some .low }

/-- One iteration of the Tier-1 loop in `crawlPage`: either a successful
`CrawlResult` or the `fallbackReason` the attempt assigned. -/
def crawlAttempt (fetchO : Nat → Option FetchResponse) (i : Nat) :
    CrawlResult ⊕ FallbackReason :=
  match tryFetchOnce fetchO i with
  | none => .inr .fetch_failed
  | some r =>
    if ¬ looksLikeProductPage r.html then .inr .non_product
    else if ¬ hasUsableProductSignals r.html then .inr .non_product
    else
      .inl
        { finalUrl := r.finalUrl
          html := some r.html
          usedPlaywright := false
          contentType := r.contentType
          crawlConfidence := some .high }

/-- `crawlPage` of `crawlService.ts`: two Tier-1 attempts (each failing
attempt overwrites `fallbackReason`), then the Playwright fallback. -/
def crawlPage (fetchO : Nat → Option FetchResponse) (pw : Option PwPage)
    (url : Str) : CrawlResult :=
  match crawlAttempt fetchO 0 with
  | .inl ok => ok
  | .inr reason0 =>
    match crawlAttempt fetchO 1 with
    | .inl ok => ok
    | .inr reason1 =>
      -- reason1 overwrote reason0; reason0 is dead here
      let _ := reason0
      crawlWithPlaywright pw url (some reason1)


/-!
## Discovery (`services/discoveryService.ts`)

The Serper search backend and the platform URL parser are effects:
* `serperO q` is the parsed organic-result array the search API returned
  for query `q` (`.error` models an HTTP failure, which the service
  rethrows);
* `hostOf u` is `new URL(u).hostname` (`none` when the constructor
  throws);
* `squash` is the logistic function `x ↦ 1/(1+e^(−x))` of `scoreResults`
  — transcendental, so it enters as a parameter; every property proved
  below holds for arbitrary `squash`.
-/

structure SerperRaw where
  link : Option Str := none
  url : Option Str := none
  title : Option Str := none
  snippet : Option Str := none
  description : Option Str := none
  deriving Repr, DecidableEq

structure SerperResult where
  link : Str
  title : Str
  snippet : Str
  deriving Repr, DecidableEq

/-- JS `a || b` for a possibly-absent string `a`: `a` if truthy
(present and non-empty), else `b`. -/
def jsOrStr (a : Option Str) (b : Str) : Str :=
  match a with
  | some s => if s = [] then b else s
  | none => b

/-- The response normalization in `runSerperQuery`:
`{link: r.link || r.url || "", title: r.title || "", snippet: r.snippet || r.description || ""}`. -/
def normalizeSerper (raws : List SerperRaw) : List SerperResult :=
  raws.map fun r =>
    { link := jsOrStr r.link (jsOrStr r.url [])
      title := jsOrStr r.title []
      snippet := jsOrStr r.snippet (jsOrStr r.description []) }

def runSerperQuery (serperO : Str → Except Str (List SerperRaw)) (q : Str) :
    Except Str (List SerperResult) :=
  match serperO q with
  | .error e => .error e
  | .ok raws => .ok (normalizeSerper raws)

/-- `String.prototype.split` with a single-character separator
(`"a.b".split(".") = ["a","b"]`, `"".split(".") = [""]`). -/
def jsSplitCh (sep : Char) : Str → List Str
  | [] => [[]]
  | c :: rest =>
    let r := jsSplitCh sep rest
    if c = sep then [] :: r
    else
      match r with
      | h :: t => (c :: h) :: t
      | [] => [[c]]

/-- `extractDomain`: hostname with a leading `www.` stripped, `""` on a
URL-parse failure. -/
def extractDomain (hostOf : Str → Option Str) (url : Str) : Str :=
  match hostOf url with
  | none => []
  | some h => if startsW h "www.".toList then h.drop 4 else h

/-- `bootstrapDomainTrust` of `discoveryService.ts`. -/
def bootstrapDomainTrust (domain : Str) : ℚ :=
  if domain = [] then 0
  else if containsSub domain "forum".toList ∨ containsSub domain "reddit".toList then -7/10
  else if containsSub domain "blog".toList then -6/10
  else if containsSub domain "viewer".toList then -4/10
  else if containsSub domain "datasheet".toList then -3/10
  else if containsSub domain "digikey".toList then 9/10
  else if containsSub domain "mouser".toList then 9/10
  else if containsSub domain "tti".toList then 9/10
  else if containsSub domain "rs-online".toList ∨ containsSub domain "rs-components".toList then 9/10
  else if containsSub domain "farnell".toList ∨ containsSub domain "newark".toList then 9/10
  else if (jsSplitCh '.' domain).length = 2 then 4/10
  else 0

/-- `isBlogOrForum` of `discoveryService.ts`. -/
def isBlogOrForum (url : Str) : Bool :=
  containsSub url "blog".toList ∨ containsSub url "forum".toList ∨
  containsSub url "reddit".toList ∨ containsSub url "stackexchange".toList

/-- The six interpretable discovery features of one search result. -/
structure DiscFeat where
  url : Str
  mpnInUrl : ℚ
  mpnInTitle : ℚ
  mfgInText : ℚ
  productPath : ℚ
  domainTrust : ℚ
  junkPath : ℚ
  deriving Repr, DecidableEq

structure ScoredUrl where
  url : Str
  score : ℚ
  deriving Repr, DecidableEq

def b2q (b : Bool) : ℚ := if b then 1 else 0

/-- Feature extraction of `scoreResults`. -/
def discFeatures (hostOf : Str → Option Str) (mpn manufacturer : Str)
    (r : SerperResult) : DiscFeat :=
  let mpnLower := jsLower mpn
  let mfgLower := jsLower manufacturer
  let url := jsLower r.link
  let title := jsLower r.title
  let snippet := jsLower r.snippet
  { url := r.link
    mpnInUrl := b2q (containsSub url mpnLower)
    mpnInTitle := b2q (containsSub title mpnLower)
    mfgInText := b2q (containsSub title mfgLower ∨ containsSub snippet mfgLower)
    productPath := b2q (containsSub url "/product".toList ∨ containsSub url "/products/".toList)
    domainTrust := bootstrapDomainTrust (extractDomain hostOf url)
    junkPath := b2q (containsSub url "/search".toList ∨ containsSub url "?q=".toList ∨
      isBlogOrForum url) }

/-- Stable descending insertion by score: the result of V8's stable
`sort((a, b) => b.score - a.score)`. -/
def insertScoreDesc (x : ScoredUrl) : List ScoredUrl → List ScoredUrl
  | [] => [x]
  | y :: ys => if x.score ≥ y.score then x :: y :: ys else y :: insertScoreDesc x ys

def sortScoreDesc (l : List ScoredUrl) : List ScoredUrl := l.foldr insertScoreDesc []

/-- `scoreResults` of `discoveryService.ts`: feature extraction, per-query
mean-centering, fixed linear weights, logistic squashing, stable
descending sort. -/
def scoreResults (hostOf : Str → Option Str) (squash : ℚ → ℚ)
    (results : List SerperResult) (mpn manufacturer : Str) : List ScoredUrl :=
  let features := results.map (discFeatures hostOf mpn manufacturer)
  let denom : ℚ := if features.length = 0 then 1 else (features.length : ℚ)
  let m1 := (features.map (·.mpnInUrl)).sum / denom
  let m2 := (features.map (·.mpnInTitle)).sum / denom
  let m3 := (features.map (·.mfgInText)).sum / denom
  let m4 := (features.map (·.productPath)).sum / denom
  let m5 := (features.map (·.domainTrust)).sum / denom
  let m6 := (features.map (·.junkPath)).sum / denom
  sortScoreDesc <| features.map fun f =>
    let linear : ℚ :=
      0 + (21/5) * (f.mpnInUrl - m1) + (17/5) * (f.mpnInTitle - m2) +
      (13/5) * (f.mfgInText - m3) + 2 * (f.productPath - m4) +
      (8/5) * (f.domainTrust - m5) + (-19/5) * (f.junkPath - m6)
    { url := f.url, score := squash linear }

structure DiscoveryResult where
  primaryProductUrl : Option Str
  backupUrls : List Str
  pdfUrls : List Str
  confidence : ConfLevel
  deriving Repr, DecidableEq

/-- The first Serper query, `"<mpn>" "<manufacturer>"`. -/
def mainDiscoveryQuery (mpn manufacturer : Str) : Str :=
  '"' :: mpn ++ '"' :: ' ' :: '"' :: manufacturer ++ ['"']

/-- The PDF-fallback query, `"<mpn>" datasheet pdf`. -/
def pdfFallbackQuery (mpn : Str) : Str :=
  '"' :: mpn ++ '"' :: " datasheet pdf".toList

/-- `discoverProductSources` of `discoveryService.ts`. -/
def discoverProductSources (serperO : Str → Except Str (List SerperRaw))
    (hostOf : Str → Option Str) (squash : ℚ → ℚ) (mpn manufacturer : Str) :
    Except Str DiscoveryResult :=
  match runSerperQuery serperO (mainDiscoveryQuery mpn manufacturer) with
  | .error e => .error e
  | .ok results =>
    let scored := scoreResults hostOf squash results mpn manufacturer
    match scored with
    | [] =>
      -- no primary: PDF fallback query
      match runSerperQuery serperO (pdfFallbackQuery mpn) with
      | .error e => .error e
      | .ok pdfResults =>
        let pdfOnly := ((scoreResults hostOf squash pdfResults mpn manufacturer).filter
          (fun r => endsW (jsLower r.url) ".pdf".toList)).map (·.url)
        .ok { primaryProductUrl := none
              backupUrls := []
              pdfUrls := pdfOnly.take 3
              confidence := if pdfOnly.length > 0 then .medium else .low }
    | primary :: rest =>
      let backups := ((scored.filter (fun r => ¬ (r.url = primary.url))).take 3).map (·.url)
      let pdfs := (scored.filter (fun r => endsW (jsLower r.url) ".pdf".toList)).map (·.url)
      .ok { primaryProductUrl := some primary.url
            backupUrls := backups
            pdfUrls := pdfs.take 3
            confidence :=
              match rest with
              | [] => .high
              | second :: _ =>
                if primary.score - second.score > 15/100 then .high
                else if primary.score - second.score > 5/100 then .medium
                else .low }


/-!
## HTML extractor (`services/extractService.ts`)

`cheerio.load` and the DOM queries are modelled by a `DomView` oracle:
the values cheerio would answer for each selector used by the extractor,
in document order.  `resolve` models `new URL(href, base).toString()`
(`none` when the constructor throws) and `uriDecode` models
`decodeURIComponent` (`none` when it throws).  Everything downstream of
those query results — scoring, filtering, deduplication, promotion,
quality gating — is the repository's own logic and is modelled
executably.
-/

/-- JS object/Map assignment `m[k] = v`: overwrite in place, append if
new (string-keyed insertion-order semantics). -/
def objSet (k : Str) (v : α) : List (Str × α) → List (Str × α)
  | [] => [(k, v)]
  | (k', v') :: rest => if k' = k then (k, v) :: rest else (k', v') :: objSet k v rest

/-- JS object read `m[k]` (`none` = `undefined`). -/
def objGet (m : List (Str × α)) (k : Str) : Option α :=
  (m.find? (fun e => e.1 = k)).map (·.2)

/-- Collapse every run of JS whitespace to a single space
(`.replace(/\s+/g, " ")`).  Fuel-based scan; `fuel = s.length` always
suffices. -/
def collapseWsF (fuel : Nat) (s : Str) : Str :=
  match fuel with
  | 0 => s
  | fuel + 1 =>
    match s with
    | [] => []
    | c :: rest =>
      if isJsSpace c then ' ' :: collapseWsF fuel (rest.dropWhile isJsSpace)
      else c :: collapseWsF fuel rest

def collapseWs (s : Str) : Str := collapseWsF s.length s

/-- `cleanText` of `extractService.ts`: `null` for falsy input, else
collapse whitespace runs, map `\n\r\t` to spaces (a no-op after the
first replace), and trim. -/
def cleanText (input : Option Str) : Option Str :=
  match input with
  | none => none
  | some s =>
    if s = [] then none
    else some (jsTrim ((collapseWs s).map fun c =>
      if c = '\n' ∨ c = '\r' ∨ c = '\t' then ' ' else c))

/-- JS truthiness coercion for an optional string: `undefined`/`""`
become `none`. -/
def optTruthy (o : Option Str) : Option Str :=
  match o with
  | some [] => none
  | o => o

/-- `x.replace(/[-\s]/g, "")`: drop every hyphen and whitespace char. -/
def stripDashSpace (s : Str) : Str :=
  s.filter fun c => ¬ (c = '-' ∨ isJsSpace c)

/-- Case-insensitive literal prefix test (pattern written lowercase). -/
def ciStarts : Str → Str → Bool
  | _, [] => true
  | [], _ :: _ => false
  | c :: s, p :: ps => (c.toLower = p.toLower) && ciStarts s ps

/-- Does `p` hold at some position of the string? -/
def anywhere (p : Str → Bool) : Str → Bool
  | [] => p []
  | c :: rest => p (c :: rest) || anywhere p rest

/-- Does `p prev suffix` hold at some position (with the preceding
character, for `\b` boundaries)? -/
def anywherePrev (p : Option Char → Str → Bool) : Option Char → Str → Bool
  | prev, [] => p prev []
  | prev, c :: rest => p prev (c :: rest) || anywherePrev p (some c) rest

/-- Is the first character of `l` absent or a non-word character?
(`\b` after a word character.) -/
def notWordNext (l : Str) : Bool :=
  match l.head? with
  | some c => ¬ isWordCh c
  | none => true

/-- `/120\s*\/\s*240\s*V/i` at the current position.  The `\s*` gaps
are followed by non-space literals, so greedy matching needs no
backtracking. -/
def rx120At (s : Str) : Bool :=
  if ciStarts s "120".toList then
    match (s.drop 3).dropWhile isJsSpace with
    | '/' :: s2 =>
      let s3 := s2.dropWhile isJsSpace
      if ciStarts s3 "240".toList then
        ciStarts ((s3.drop 3).dropWhile isJsSpace) "v".toList
      else false
    | _ => false
  else false

/-- `/\b1\s*PH\b|\b1Ã˜\b|\bSingle[-\s]?Phase\b/i` at the current
position (the middle alternative is the mojibake literal from the
source). -/
def rxPhaseAt (prev : Option Char) (s : Str) : Bool :=
  let altA :=
    match s with
    | '1' :: s1 =>
      wordBoundary prev (some '1') &&
      (let s2 := s1.dropWhile isJsSpace
       ciStarts s2 "ph".toList && notWordNext (s2.drop 2))
    | _ => false
  let altB :=
    match s with
    | c1 :: c2 :: c3 :: s3 =>
      (c1 = '1' : Bool) && (c2.toLower = 'Ã'.toLower : Bool) && (c3 = '˜' : Bool) &&
      wordBoundary prev (some '1') &&
      -- `˜` is a non-word character, so the trailing `\b` needs a word
      -- character next
      (match s3.head? with | some c => isWordCh c | none => false)
    | _ => false
  let altC :=
    if ciStarts s "single".toList then
      wordBoundary prev s.head? &&
      (let s1 := s.drop 6
       let direct := ciStarts s1 "phase".toList && notWordNext (s1.drop 5)
       match s1 with
       | c :: s2 =>
         if c = '-' ∨ isJsSpace c then
           (ciStarts s2 "phase".toList && notWordNext (s2.drop 5)) || direct
         else direct
       | [] => false)
    else false
  altA || altB || altC

/-- `/200\s*A(MP)?/i` at the current position (no boundaries; the
optional group cannot affect `.test`). -/
def rx200At (s : Str) : Bool :=
  ciStarts s "200".toList ∧ ciStarts ((s.drop 3).dropWhile isJsSpace) "a".toList

/-- `/downline|sub[-\s]?panel/i` at the current position. -/
def rxDownlineAt (s : Str) : Bool :=
  ciStarts s "downline".toList ||
  (ciStarts s "sub".toList &&
    (let s1 := s.drop 3
     ciStarts s1 "panel".toList ||
     (match s1 with
      | c :: s2 => ((c = '-' : Bool) || isJsSpace c) && ciStarts s2 "panel".toList
      | [] => false)))

/-- `/surge\s+protection/i` at the current position. -/
def rxSurgeAt (s : Str) : Bool :=
  ciStarts s "surge".toList &&
  (match s.drop 5 with
   | c :: rest => isJsSpace c && ciStarts (rest.dropWhile isJsSpace) "protection".toList
   | [] => false)

/-- `promoteSpecsFromText` of `extractService.ts`: the deterministic
regex promoter over meta/OG description text. -/
def promoteSpecsFromText (text : Str) : List (Str × Str) :=
  let m0 : List (Str × Str) := []
  let m1 := if anywhere rx120At text then
    objSet "System Voltage".toList "120/240 V".toList m0 else m0
  let m2 := if anywherePrev rxPhaseAt none text then
    objSet "Phase".toList "Single Phase".toList m1 else m1
  let m3 := if anywhere rx200At text then
    objSet "Max Service Size".toList "200 A".toList m2 else m2
  let m4 := if anywhere rxDownlineAt text then
    objSet "Application".toList "Downline / Sub-panel Protection".toList m3 else m3
  if anywhere rxSurgeAt text then
    objSet "Product Type".toList "Surge Protection Device".toList m4 else m4

/-- One `<a href>` element: its `href` attribute and its visible text. -/
structure Anchor where
  href : Str
  text : Str
  deriving Repr, DecidableEq

/-- The cheerio query results `extractFromHtml` consumes, in document
order. -/
structure DomView where
  metaDescriptionAttr : Option Str := none
  ogDescriptionAttr : Option Str := none
  ogTitleAttr : Option Str := none
  twitterTitleAttr : Option Str := none
  h1FirstText : Str := []
  docTitleText : Str := []
  /-- outcome of the `var BCData =` inline-script scan:
  `product_attributes.weight.formatted` of the first parsed blob. -/
  bcWeight : Option Str := none
  /-- `product_attributes.sku` of the first parsed blob. -/
  bcSku : Option Str := none
  /-- first JSON-LD `Product.description` string. -/
  jsonLdDescription : Option Str := none
  anchors : List Anchor := []
  ogImageAttr : Option Str := none
  imgSrcs : List Str := []
  /-- per `<table>`: the `tr` rows, each the list of its `td`/`th`
  cell texts. -/
  tables : List (List (List Str)) := []
  /-- per `<dt>`: its text and the text of `next("dd")` (`""` if none). -/
  dts : List (Str × Str) := []
  deriving Repr, DecidableEq

inductive ExtractReason
  | no_html | blocked | non_product | parse_error | low_quality
  deriving Repr, DecidableEq

structure DsLink where
  url : Str
  label : Option Str
  deriving Repr, DecidableEq

structure ExtractResult where
  ok : Bool
  reason : Option ExtractReason := none
  qualityScore : Option ℚ := none
  sourceUrl : Str
  displayTitle : Option Str
  canonicalTitle : Str
  productTitle : Str
  mpn : Str
  manufacturer : Option Str
  specs : List (Str × Str)
  overview : Option Str
  images : List Str
  datasheets : List DsLink
  deriving Repr, DecidableEq

structure ExtractArgs where
  html : Option Str
  sourceUrl : Str
  mpn : Str
  manufacturer : Option Str := none
  deriving Repr, DecidableEq

/-- The `fail(reason, …)` helper of `extractService.ts`. -/
def failResult (reason : ExtractReason) (sourceUrl mpn : Str)
    (manufacturer : Option Str) : ExtractResult :=
  let canonicalTitle := jsTrim ((manufacturer.getD []) ++ ' ' :: mpn)
  { ok := false
    reason := some reason
    sourceUrl := sourceUrl
    displayTitle := none
    canonicalTitle := canonicalTitle
    productTitle := canonicalTitle
    mpn := mpn
    manufacturer := manufacturer
    specs := []
    overview := none
    images := []
    datasheets := [] }

/-- Scored candidate for `dedupeAndSort`. -/
structure UrlScored (α : Type) where
  url : Str
  score : ℤ
  payload : α
  deriving Repr, DecidableEq

/-- The `Map`-based deduplication of `dedupeAndSort`: keep the first
insertion position per URL; a later item replaces only with a strictly
greater score. -/
def dedupeByUrl (items : List (UrlScored α)) : List (UrlScored α) :=
  (items.foldl (fun m item =>
    match objGet m item.url with
    | none => objSet item.url item m
    | some existing =>
      if item.score > existing.score then objSet item.url item m else m) []).map (·.2)

def insertDescScored (x : UrlScored α) : List (UrlScored α) → List (UrlScored α)
  | [] => [x]
  | y :: ys => if x.score ≥ y.score then x :: y :: ys else y :: insertDescScored x ys

/-- Stable descending sort by score (`sort((a, b) => b.score - a.score)`). -/
def sortDescScored (l : List (UrlScored α)) : List (UrlScored α) :=
  l.foldr insertDescScored []

def dedupeAndSort (items : List (UrlScored α)) : List (UrlScored α) :=
  sortDescScored (dedupeByUrl items)

/-- `extractDatasheets` of `extractService.ts`. -/
def extractDatasheets (resolve : Str → Str → Option Str)
    (anchors : List Anchor) (baseUrl : Str) : List DsLink :=
  let results := anchors.filterMap fun a =>
    if a.href = [] then none
    else
      match resolve a.href baseUrl with
      | none => none
      | some abs =>
        let text := match cleanText (some a.text) with
          | some t => jsLower t
          | none => []
        let lowerHref := jsLower abs
        let score : ℤ :=
          (if endsW lowerHref ".pdf".toList then 3 else 0) +
          (if containsSub text "datasheet".toList ∨
              containsSub text "data sheet".toList then 2 else 0) +
          (if containsSub text "spec".toList then 2 else 0) +
          (if containsSub text "manual".toList then 1 else 0) +
          (if containsSub text "privacy".toList ∨ containsSub text "terms".toList ∨
              containsSub text "catalog".toList then -3 else 0)
        if score > 0 then
          some { url := abs, score := score,
                 payload := optTruthy (cleanText (some a.text)) }
        else none
  ((dedupeAndSort results).take 5).map fun r => { url := r.url, label := r.payload }

/-- `extractImages` of `extractService.ts`. -/
def extractImages (resolve : Str → Str → Option Str)
    (ogImage : Option Str) (imgSrcs : List Str) (baseUrl : Str) : List Str :=
  let ogCand : List (UrlScored Unit) :=
    match ogImage with
    | some og =>
      if og = [] then []
      else
        match resolve og baseUrl with
        | some abs => [{ url := abs, score := 5, payload := () }]
        | none => []
    | none => []
  let imgCands : List (UrlScored Unit) := imgSrcs.filterMap fun src =>
    if src = [] then none
    else
      match resolve src baseUrl with
      | none => none
      | some abs =>
        let lower := jsLower abs
        if containsSub lower "logo".toList ∨ containsSub lower "icon".toList ∨
           containsSub lower "sprite".toList ∨ containsSub lower "placeholder".toList ∨
           containsSub lower "spinner".toList then none
        else
          let score : ℤ := 1 +
            (if containsSub lower "product".toList ∨ containsSub lower "media".toList
             then 2 else 0) +
            (if endsW lower ".jpg".toList ∨ endsW lower ".png".toList ∨
                endsW lower ".webp".toList then 1 else 0)
          some { url := abs, score := score, payload := () }
  ((dedupeAndSort (ogCand ++ imgCands)).take 3).map (·.url)

/-- Drop one trailing `:` from a spec key (`key.replace(/:$/, "")`). -/
def dropTrailingColon (s : Str) : Str :=
  if endsW s ":".toList then s.dropLast else s

/-- `extractSpecs` of `extractService.ts` (tables with ≥ 3 rows, then
definition lists). -/
def extractSpecs (tables : List (List (List Str))) (dts : List (Str × Str)) :
    List (Str × Str) :=
  let afterTables := tables.foldl (fun specs rows =>
    if rows.length < 3 then specs
    else
      rows.foldl (fun specs cells =>
        if cells.length < 2 then specs
        else
          match cleanText cells.head?, cleanText (cells.get? 1) with
          | some key, some value =>
            if key ≠ [] ∧ value ≠ [] ∧ value.length < 180 then
              objSet (dropTrailingColon key) value specs
            else specs
          | _, _ => specs) specs) []
  dts.foldl (fun specs dt =>
    match cleanText (some dt.1), cleanText (some dt.2) with
    | some key, some value =>
      if key ≠ [] ∧ value ≠ [] ∧ value.length < 180 then
        objSet (dropTrailingColon key) value specs
      else specs
    | _, _ => specs) afterTables

/-- `Array.prototype.join(" ")`. -/
def joinSp : List Str → Str
  | [] => []
  | [s] => s
  | s :: rest => s ++ ' ' :: joinSp rest

/-- The final quality gate of `extractFromHtml`: the two return
statements differ only in `ok`/`reason`; the strict `< 0.30` comparison
selects between them. -/
def qualityGate (q : ℚ) (base : ExtractResult) : ExtractResult :=
  if q < 30/100 then { base with ok := false, reason := some .low_quality }
  else base

/-- Stages C–H of `extractFromHtml` (after the guardrails and
`cheerio.load` succeeded). -/
def extractCore (resolve : Str → Str → Option Str)
    (uriDecode : Str → Option Str) (args : ExtractArgs) (html : Str)
    (dom : DomView) : ExtractResult :=
  let normalizedMpn := jsLower (stripDashSpace args.mpn)
  let metaDescription := cleanText dom.metaDescriptionAttr
  let ogDescription := cleanText dom.ogDescriptionAttr
  -- Stage C: title
  let displayTitle := optTruthy (cleanText (some
    (jsOrStr dom.ogTitleAttr
      (jsOrStr dom.twitterTitleAttr
        (if dom.h1FirstText = [] then dom.docTitleText else dom.h1FirstText)))))
  let initialTitle := jsTrim ((args.manufacturer.getD []) ++ ' ' :: args.mpn)
  let h1Text := (cleanText (some dom.h1FirstText)).getD []
  let ogTitle := (cleanText dom.ogTitleAttr).getD []
  let docTitle := (cleanText (some dom.docTitleText)).getD []
  let candidates := [h1Text, ogTitle, docTitle].filter (fun c => c ≠ [])
  let productTitle :=
    match candidates.find? (fun c =>
      containsSub (stripDashSpace (jsLower c)) normalizedMpn) with
    | some c => c
    | none => initialTitle
  let canonicalTitle :=
    if productTitle ≠ [] ∧ containsSub (jsLower productTitle) (jsLower args.mpn)
    then productTitle else initialTitle
  -- Stage D: overview
  let overview :=
    match optTruthy metaDescription with
    | some o => some o
    | none =>
      match dom.jsonLdDescription with
      | some d => if d = [] then none else some ((uriDecode d).getD d)
      | none => none
  -- Stages E–G
  let datasheets := extractDatasheets resolve dom.anchors args.sourceUrl
  let images := extractImages resolve dom.ogImageAttr dom.imgSrcs args.sourceUrl
  let specs0 := extractSpecs dom.tables dom.dts
  let specs1 :=
    match optTruthy dom.bcWeight with
    | some w => if objGet specs0 "Weight".toList = none
                then objSet "Weight".toList w specs0 else specs0
    | none => specs0
  let specs2 :=
    match optTruthy dom.bcSku with
    | some sk => if objGet specs1 "SKU".toList = none
                 then objSet "SKU".toList sk specs1 else specs1
    | none => specs1
  let promotionText := joinSp
    (([metaDescription, ogDescription].filterMap id).filter (fun s => s ≠ []))
  let promoted := promoteSpecsFromText promotionText
  let specs := promoted.foldl (fun m kv =>
    match objGet m kv.1 with
    | some v => if v = [] then objSet kv.1 kv.2 m else m
    | none => objSet kv.1 kv.2 m) specs2
  -- Stage H: quality score
  let hasTitle : ℚ := match displayTitle with
    | some t => if t.length > 15 then 1 else 0
    | none => 0
  let hasSpecs : ℚ := if specs.length > 0 then 1 else 0
  let hasImages : ℚ := if images.length > 0 then 1 else 0
  let hasDatasheets : ℚ := if datasheets.length > 0 then 1 else 0
  let hasOverview : ℚ := if (overview.getD []).length > 40 then 1 else 0
  let qualityScore : ℚ :=
    (30/100) * hasSpecs + (25/100) * hasDatasheets + (20/100) * hasImages +
    (15/100) * hasTitle + (10/100) * hasOverview
  let _ := html
  qualityGate qualityScore
    { ok := true
      qualityScore := some qualityScore
      sourceUrl := args.sourceUrl
      displayTitle := displayTitle
      canonicalTitle := canonicalTitle
      productTitle := productTitle
      mpn := args.mpn
      manufacturer := args.manufacturer
      specs := specs
      overview := overview
      images := images
      datasheets := datasheets }

/-- The guardrail conditions of `extractFromHtml` (Stage A). -/
def looksLikeChallenge (lowerHtml : Str) : Bool :=
  containsSub lowerHtml "__cf_chl".toList ∨
  containsSub lowerHtml "cf-challenge".toList ∨
  containsSub lowerHtml "attention required".toList ∨
  containsSub lowerHtml "verify you are human".toList

def looksLikeDistributor (sourceUrl : Str) : Bool :=
  containsSub sourceUrl "/product".toList ∨
  containsSub sourceUrl "/products".toList ∨
  containsSub sourceUrl "mc-mc.com".toList ∨
  containsSub sourceUrl "dosupply.com".toList ∨
  containsSub sourceUrl "radwell".toList ∨
  containsSub sourceUrl "gerrie".toList ∨
  containsSub sourceUrl "mro".toList

/-- `extractFromHtml` of `extractService.ts`.  `domO` is the outcome of
`cheerio.load(html)` (`none` = it threw, reported as `parse_error`). -/
def extractFromHtml (resolve : Str → Str → Option Str)
    (uriDecode : Str → Option Str) (args : ExtractArgs)
    (domO : Option DomView) : ExtractResult :=
  match args.html with
  | none => failResult .no_html args.sourceUrl args.mpn args.manufacturer
  | some html =>
    if html = [] then failResult .no_html args.sourceUrl args.mpn args.manufacturer
    else
      let lowerHtml := jsLower html
      if html.length < 12000 ∧ looksLikeChallenge lowerHtml then
        failResult .blocked args.sourceUrl args.mpn args.manufacturer
      else
        let normalizedMpn := jsLower (stripDashSpace args.mpn)
        let normalizedHtml := stripDashSpace lowerHtml
        if ¬ containsSub normalizedHtml normalizedMpn ∧
           ¬ looksLikeDistributor args.sourceUrl then
          failResult .non_product args.sourceUrl args.mpn args.manufacturer
        else
          match domO with
          | none => failResult .parse_error args.sourceUrl args.mpn args.manufacturer
          | some dom => extractCore resolve uriDecode args html dom


/-!
## Synthesizer (`services/synthesizeService.ts`)

The LLM call is an effect: the oracle provides the *parsed* JSON value
`extractJson` recovered from the response text (`.error` models an
empty/unparseable response, which the service rethrows as a parse
failure).  `normalizeSynthesisOutput`, `validateAgainstInput` and
`computeContentConfidence` — the repository's own post-processing — are
modelled executably over a JSON value type.
-/

/-- Parsed JSON values (numbers restricted to integers; every number the
synthesizer touches is only ever stringified). -/
inductive Json
  | nul
  | bool (b : Bool)
  | num (n : Int)
  | str (s : Str)
  | arr (xs : List Json)
  | obj (fields : List (Str × Json))

/-- JS property read `j.k` (`none` = `undefined`; absent on
non-objects). -/
def jget (j : Json) (k : Str) : Option Json :=
  match j with
  | .obj fields => (fields.find? (fun f => f.1 = k)).map (·.2)
  | _ => none

/-- JS truthiness of a JSON value. -/
def jTruthy (j : Json) : Bool :=
  match j with
  | .nul => false
  | .bool b => b
  | .num n => n ≠ 0
  | .str s => s ≠ []
  | .arr _ => true
  | .obj _ => true

mutual

/-- `String(x)` for a JSON value. -/
def jsToString : Json → Str
  | .nul => "null".toList
  | .bool true => "true".toList
  | .bool false => "false".toList
  | .num n => (toString n).toList
  | .str s => s
  | .arr xs => jsArrToString xs
  | .obj _ => "[object Object]".toList

/-- `Array.prototype.toString`: elements joined with `,`, with
`null`/`undefined` elements rendered as `""`. -/
def jsArrToString : List Json → Str
  | [] => []
  | [x] => jsElemToString x
  | x :: rest => jsElemToString x ++ ',' :: jsArrToString rest

def jsElemToString : Json → Str
  | .nul => []
  | j => jsToString j

end

/-- `Array.prototype.join(sep)` over JSON elements. -/
def jsArrJoin (sep : Str) : List Json → Str
  | [] => []
  | [x] => jsElemToString x
  | x :: rest => jsElemToString x ++ sep ++ jsArrJoin sep rest

/-- `String(out.f ?? "")` for a JSON property: absent/`null` becomes the
empty string. -/
def jStrField (out : Json) (k : Str) : Str :=
  match jget out k with
  | none => []
  | some .nul => []
  | some v => jsToString v

/-- `out.f` when an array (else `none`). -/
def jArrField (out : Json) (k : Str) : Option (List Json) :=
  match jget out k with
  | some (.arr xs) => some xs
  | _ => none

structure SynthesisInput where
  mpn : Str
  manufacturer : Str
  canonicalTitle : Str
  specs : List (Str × Str)
  images : List Str
  datasheets : List DsLink
  notes : Option (List Str) := none
  verbatimDescriptors : List Str
  deriving Repr, DecidableEq

structure SynthesisOutput where
  canonicalTitle : Str
  displayTitle : Option Str := none
  keyFeatures : List Str
  overview : Str
  shortDescription : Str
  longDescription : Str
  bulletHighlights : List Str
  seoDescription : Str
  disclaimers : List Str
  _confidence : Option ℚ := none
  deriving Repr, DecidableEq

/-- `arr.map(s => String(s).trim()).filter(Boolean)`. -/
def strArrClean (xs : List Json) : List Str :=
  (xs.map (fun s => jsTrim (jsToString s))).filter (fun s => s ≠ [])

/-- `f.replace(/^[^:]+:\s*/, "")`: strip a leading label up to the first
colon plus following whitespace (unchanged when the string starts with a
colon or has none). -/
def stripFeatureLabel (f : Str) : Str :=
  let pre := f.takeWhile (fun c => c ≠ ':')
  if pre ≠ [] ∧ pre.length < f.length then
    (f.drop (pre.length + 1)).dropWhile isJsSpace
  else f

/-- `arr.join(sep)` over strings. -/
def joinWith (sep : Str) : List Str → Str
  | [] => []
  | [s] => s
  | s :: rest => s ++ sep ++ joinWith sep rest

/-- `normalizeSynthesisOutput` of `synthesizeService.ts`.  Throws
(`.error`) on a non-object value (in JS, `typeof null/array` quirks:
`null` is rejected by falsiness, arrays pass `typeof === "object"`). -/
def normalizeSynthesisOutput (out : Json) (canonicalTitle : Str) :
    Except Str SynthesisOutput :=
  match out with
  | .obj _ | .arr _ =>
    let keyFeatures := match jArrField out "keyFeatures".toList with
      | some xs => strArrClean xs
      | none => []
    let overview0 := jsTrim (jStrField out "overview".toList)
    let shortDescriptionRaw := jsTrim (jStrField out "shortDescription".toList)
    let longDescription := jsTrim (jStrField out "longDescription".toList)
    let bulletHighlights := match jArrField out "bulletHighlights".toList with
      | some xs => strArrClean xs
      | none => []
    let seoDescription0 := jsTrim (jStrField out "seoDescription".toList)
    let seoDescription :=
      if seoDescription0.length > 160 then jsTrim (seoDescription0.take 160)
      else seoDescription0
    let disclaimers := match jArrField out "disclaimers".toList with
      | some xs => strArrClean xs
      | none => []
    let finalKeyFeatures := if keyFeatures ≠ [] then keyFeatures else bulletHighlights
    let finalBulletHighlights :=
      if bulletHighlights ≠ [] then bulletHighlights else keyFeatures
    let overview :=
      if overview0 = [] ∧ finalKeyFeatures.length ≥ 4 then
        "The ".toList ++ canonicalTitle ++
        " is a digital input module designed for industrial automation systems. Based on available specifications, it supports ".toList ++
        joinWith ", ".toList (finalKeyFeatures.map stripFeatureLabel) ++ ".".toList
      else overview0
    let shortDescription :=
      if shortDescriptionRaw = [] ∧ finalKeyFeatures.length > 0 then
        "The ".toList ++ canonicalTitle ++
        " is a digital input module featuring ".toList ++
        joinWith " and ".toList (finalKeyFeatures.take 2) ++ ".".toList
      else shortDescriptionRaw
    .ok { canonicalTitle := canonicalTitle
          keyFeatures := finalKeyFeatures
          overview := overview
          shortDescription := shortDescription
          longDescription := longDescription
          bulletHighlights := finalBulletHighlights
          seoDescription := seoDescription
          disclaimers := disclaimers }
  | _ => .error "Gemini returned non-object JSON".toList

/-- JS `Set` insertion: append if absent. -/
def setAdd (l : List Str) (x : Str) : List Str :=
  if x ∈ l then l else l ++ [x]

/-- `new Set(l)`: de-duplicate keeping first occurrences. -/
def setOfList (l : List Str) : List Str := l.foldl setAdd []

/-- `validateAgainstInput` of `synthesizeService.ts`.  Note: despite its
name it performs *no* key-feature filtering — `keyFeaturesChanged` is
constantly `false` and `filteredKeyFeatures` is `output.keyFeatures`
unchanged; it only patches a TLD-bearing canonical title and appends
disclaimers. -/
def validateAgainstInput (input : SynthesisInput) (output : SynthesisOutput) :
    SynthesisOutput :=
  let canonicalTitle :=
    if containsSub output.canonicalTitle ".com".toList ∨
       containsSub output.canonicalTitle ".net".toList then
      input.manufacturer ++ ' ' :: input.mpn
    else output.canonicalTitle
  let keyFeaturesChanged := false
  let filteredKeyFeatures := output.keyFeatures
  let anySpecMissing := input.specs.any fun kv =>
    kv.2 = [] ∨ jsLower (jsTrim kv.2) = "not specified".toList
  let disclaimersSet := setOfList output.disclaimers
  let disclaimersSet :=
    if anySpecMissing ∨ keyFeaturesChanged then
      setAdd disclaimersSet
        "Some specifications were not provided and are listed as Not specified.".toList
    else disclaimersSet
  let disclaimersSet := setAdd disclaimersSet
    "Installation should follow local electrical codes and be performed by qualified personnel.".toList
  { output with
      canonicalTitle := canonicalTitle
      keyFeatures := filteredKeyFeatures
      disclaimers := disclaimersSet }

/-- `computeContentConfidence` of `synthesizeService.ts`. -/
def computeContentConfidence (input : SynthesisInput)
    (output : SynthesisOutput) : ℚ :=
  let totalSpecs := input.specs.length
  if totalSpecs = 0 then 0
  else
    let usedSpecsCount := output.keyFeatures.foldl (fun count feature =>
      match feature.findIdx? (fun c => c = ':') with
      | none => count
      | some colonIndex =>
        let label := jsTrim (feature.take colonIndex)
        if objGet input.specs label ≠ none then count + 1 else count) 0
    let specFraction : ℚ := (usedSpecsCount : ℚ) / (totalSpecs : ℚ)
    let hasImages : ℚ := if input.images.length > 0 then 1/10 else 0
    let hasDatasheets : ℚ := if input.datasheets.length > 0 then 1/10 else 0
    min (85/100) (specFraction + hasImages + hasDatasheets)

/-- `synthesizeProductContent` of `synthesizeService.ts`.  `llm` is the
parsed JSON of the LLM response (`.error` = empty/unparseable text). -/
def synthesizeProductContent (llm : Except Unit Json) (input : SynthesisInput) :
    Except Str SynthesisOutput :=
  let descriptors :=
    (input.verbatimDescriptors.map jsTrim).filter (fun d => d ≠ [])
  let resolvedDisplayTitle :=
    if input.canonicalTitle ≠ [] then input.canonicalTitle
    else input.manufacturer ++ ' ' :: input.mpn
  if input.specs.length = 0 then
    .ok { canonicalTitle := input.canonicalTitle
          displayTitle := some resolvedDisplayTitle
          keyFeatures := []
          overview := []
          shortDescription :=
            if descriptors ≠ [] then
              input.manufacturer ++ ' ' :: input.mpn ++ ' ' :: joinSp descriptors
            else []
          longDescription := []
          bulletHighlights := []
          seoDescription := []
          disclaimers :=
            ["Insufficient verified product data available to generate content.".toList,
             "Installation should follow local electrical codes and be performed by qualified personnel.".toList]
          _confidence := some 0 }
  else
    match llm with
    | .error _ => .error "Failed to parse Gemini response as JSON".toList
    | .ok parsed =>
      match normalizeSynthesisOutput parsed input.canonicalTitle with
      | .error _ => .error "Failed to parse Gemini response as JSON".toList
      | .ok normalized0 =>
        let normalized := validateAgainstInput input normalized0
        let confidence := computeContentConfidence input normalized
        .ok { normalized with
                canonicalTitle := input.canonicalTitle
                displayTitle := some resolvedDisplayTitle
                _confidence := some confidence }


/-!
## Normalizer (`services/normalizeProduct.ts`)

The filesystem read of `data/surgepure/products/<mpn>.json` is an
effect; `fsO` models it: `none` = the file does not exist,
`some none` = it exists but `JSON.parse` throws (the service rethrows),
`some (some raw)` = its parsed JSON.

`normalizeProducts` mutates its input: the preprocessing loop writes
datasheet-derived specs and verbatim sections onto the caller's
`ExtractedProduct` objects in place.  The model therefore returns both
the caller-visible list after mutation (`products.map
preprocessDatasheet` — the injected datasheet product is a fresh object
the caller never sees) and the computed `NormalizedProduct`.
-/

inductive SourceType
  | oem | distributor | pdf | unknown | datasheet
  deriving Repr, DecidableEq

structure VerbSec where
  heading : Option Str := none
  text : Str
  source : Option Str := none
  deriving Repr, DecidableEq

structure ImgRef where
  url : Str
  alt : Option Str := none
  deriving Repr, DecidableEq

structure ExtractedProduct where
  mpn : Str
  manufacturer : Str
  sourceUrl : Str
  sourceType : SourceType
  confidence : ℚ
  canonicalTitle : Option Str := none
  displayTitle : Option Str := none
  specs : List (Str × Str)
  verbatimSections : Option (List VerbSec) := none
  images : Option (List ImgRef) := none
  datasheets : Option (List DsLink) := none
  rawDatasheet : Option Json := none

structure NormSpecEntry where
  value : Str
  sources : List Str
  confidence : ℚ
  deriving Repr, DecidableEq

structure NormVerbSec where
  heading : Option Str
  text : Str
  source : Str
  confidence : ℚ
  deriving Repr, DecidableEq

structure NormImg where
  url : Str
  source : Str
  confidence : ℚ
  deriving Repr, DecidableEq

structure NormDs where
  url : Str
  label : Option Str
  source : Str
  deriving Repr, DecidableEq

structure NormalizedProduct where
  mpn : Str
  manufacturer : Str
  canonicalTitle : Str
  displayTitle : Str
  specs : List (Str × NormSpecEntry)
  verbatimSections : List NormVerbSec
  images : List NormImg
  datasheets : List NormDs
  overallConfidence : ℚ

/-- `Object.entries` of a JSON value (objects: fields in order; arrays:
indexed; strings: per-character; primitives: empty). -/
def natStr (n : Nat) : Str := (toString n).toList

def jEntries (j : Json) : List (Str × Json) :=
  match j with
  | .obj fields => fields
  | .arr xs => (xs.enum.map fun p => (natStr p.1, p.2))
  | .str s => (s.enum.map fun p => (natStr p.1, Json.str [p.2]))
  | _ => []

/-- `key.replace(/_raw$/, "")`. -/
def stripRawSuffix (k : Str) : Str :=
  if endsW k "_raw".toList then k.take (k.length - 4) else k

/-- `key.replace(/_/g, " ")`. -/
def underscoreToSpace (k : Str) : Str :=
  k.map fun c => if c = '_' then ' ' else c

/-- `key.replace(/\b\w/g, c => c.toUpperCase())`: uppercase every word
character at a word boundary (start or after a non-word character). -/
def isWordOpt : Option Char → Bool
  | some p => isWordCh p
  | none => false

def titleCaseGo : Option Char → Str → Str
  | _, [] => []
  | prev, c :: rest =>
    (if isWordCh c ∧ ¬ isWordOpt prev then c.toUpper else c) ::
      titleCaseGo (some c) rest

def titleCaseWords (k : Str) : Str := titleCaseGo none k

/-- The datasheet spec-key normalization:
`key.replace(/_raw$/,"").replace(/_/g," ").replace(/\b\w/g, upper)`. -/
def datasheetSpecKey (k : Str) : Str :=
  titleCaseWords (underscoreToSpace (stripRawSuffix k))

/-- Flatten one nested datasheet group (`electrical_specs` etc.) into a
specs map: keep string-valued entries with non-blank trims. -/
def flattenGroup (sourceSpecs : List (Str × Str)) (group : Json) :
    List (Str × Str) :=
  (jEntries group).foldl (fun specs kv =>
    match kv.2 with
    | .str s => if jsTrim s ≠ [] then objSet (datasheetSpecKey kv.1) (jsTrim s) specs
                else specs
    | _ => specs) sourceSpecs

/-- Property read through an optional object (`raw.overview?.f`). -/
def jgetO (o : Option Json) (k : Str) : Option Json := o.bind (fun j => jget j k)

/-- A JSON property that is a non-empty string (the
`typeof x === "string" && x` truthiness test). -/
def jStrTruthy (o : Option Json) : Option Str :=
  match o with
  | some (.str s) => if s ≠ [] then some s else none
  | _ => none

/-- First array among the candidates
(`Array.isArray(a) ? a : Array.isArray(b) ? b : …: []`). -/
def firstArrOf : List (Option Json) → List Json
  | [] => []
  | c :: rest =>
    match c with
    | some (.arr xs) => xs
    | _ => firstArrOf rest

/-- The datasheet-product preprocessing loop of `normalizeProducts`:
flatten the three nested spec groups into `specs`, and push
Overview/System-Description/Key-Feature verbatim sections.  This is the
in-place mutation of the input product. -/
def preprocessDatasheet (p : ExtractedProduct) : ExtractedProduct :=
  match p.rawDatasheet with
  | none => p
  | some raw =>
    if p.sourceType = .datasheet ∧ jTruthy raw = true then
      let specs1 := match jget raw "electrical_specs".toList with
        | some g => if jTruthy g then flattenGroup p.specs g else p.specs
        | none => p.specs
      let specs2 := match jget raw "mechanical_specs".toList with
        | some g => if jTruthy g then flattenGroup specs1 g else specs1
        | none => specs1
      let specs3 := match jget raw "safety_and_compliance".toList with
        | some g => if jTruthy g then flattenGroup specs2 g else specs2
        | none => specs2
      -- (the `p.confidence === undefined` default never fires: the field
      -- is required by the interface)
      let sections0 := p.verbatimSections.getD []
      let ov := jget raw "overview".toList
      let overviewText :=
        jsOrStr (jStrTruthy (jget raw "marketing_overview".toList))
          (jsOrStr (jStrTruthy (jgetO ov "headline_raw".toList))
            (jsOrStr
              (match jgetO ov "marketing_text_raw".toList with
               | some (.arr xs) =>
                 let joined := jsArrJoin " ".toList xs
                 if joined ≠ [] then some joined else none
               | _ => none)
              (match jgetO ov "datasheet_title_raw".toList with
               | some (.str s) => s
               | _ => [])))
      let sections1 :=
        if jsTrim overviewText ≠ [] then
          sections0 ++ [{ heading := some "Overview".toList
                          text := jsTrim overviewText
                          source := some p.sourceUrl }]
        else sections0
      let systemDesc :=
        match jStrTruthy (jget raw "system_description".toList) with
        | some s => some s
        | none =>
          match jStrTruthy (jgetO ov "system_description_raw".toList) with
          | some s => some s
          | none =>
            match jStrTruthy (jgetO ov "system_description".toList) with
            | some s => some s
            | none => jStrTruthy (jgetO ov "system_description_text_raw".toList)
      let sections2 :=
        match systemDesc with
        | some s =>
          if jsTrim s ≠ [] then
            sections1 ++ [{ heading := some "System Description".toList
                            text := jsTrim s
                            source := some p.sourceUrl }]
          else sections1
        | none => sections1
      let kf := jget raw "key_features".toList
      let bullets := firstArrOf
        [kf, jgetO kf "raw_bullets".toList, jgetO kf "bullets".toList,
         jgetO kf "items".toList, jgetO kf "raw".toList]
      let sections3 := bullets.foldl (fun sections b =>
        match b with
        | .str s =>
          if jsTrim s ≠ [] then
            sections ++ [{ heading := some "Key Feature".toList
                           text := jsTrim s
                           source := some p.sourceUrl }]
          else sections
        | _ => sections) sections2
      { p with specs := specs3, verbatimSections := some sections3 }
    else p

/-- The `SPEC_ALIASES` canonicalization. -/
def canonSpecKey (k : Str) : Str :=
  if k = "System Voltage".toList ∨ k = "Voltage".toList ∨
     k = "Nominal Ac Line Voltage Vrms".toList ∨
     k = "Nominal Ac Line Voltage (Vrms)".toList ∨
     k = "Nominal AC Line Voltage Vrms".toList
  then "Nominal AC Line Voltage (VRMS)".toList
  else k

/-- One (source, confidence, key, value) tuple of the spec merge. -/
structure SpecEvent where
  src : Str
  conf : ℚ
  key : Str
  value : Str

/-- The body of the spec-merge loop, for one entry: skip empty values;
insert new canonical keys with the source confidence; replace value and
confidence when the incoming confidence is strictly greater; always
union the source URL. -/
def evStep (merged : List (Str × NormSpecEntry)) (ev : SpecEvent) :
    List (Str × NormSpecEntry) :=
  if ev.value = [] then merged
  else
    let canonicalKey := canonSpecKey ev.key
    match objGet merged canonicalKey with
    | none => objSet canonicalKey ⟨ev.value, [ev.src], ev.conf⟩ merged
    | some e =>
      let e1 := if e.confidence < ev.conf
        then { e with value := ev.value, confidence := ev.conf } else e
      let e2 := if ev.src ∈ e1.sources then e1
        else { e1 with sources := e1.sources ++ [ev.src] }
      objSet canonicalKey e2 merged

def mergeSpecStep (p : ExtractedProduct) (merged : List (Str × NormSpecEntry))
    (kv : Str × Str) : List (Str × NormSpecEntry) :=
  evStep merged ⟨p.sourceUrl, p.confidence, kv.1, kv.2⟩

/-- The full spec merge over all products in order. -/
def mergeSpecs (ps : List ExtractedProduct) : List (Str × NormSpecEntry) :=
  ps.foldl (fun merged p => p.specs.foldl (mergeSpecStep p) merged) []

/-- The flat event list the merge processes, in processing order. -/
def specEvents (ps : List ExtractedProduct) : List SpecEvent :=
  (ps.map (fun p =>
    p.specs.map (fun kv => ({ src := p.sourceUrl, conf := p.confidence,
                              key := kv.1, value := kv.2 } : SpecEvent)))).flatten

/-- Title resolution and assembly of the `NormalizedProduct` (the body
of `normalizeProducts` after preprocessing, over the working list). -/
def buildNormalized (ps : List ExtractedProduct) (canonicalMpnOpt : Option Str) :
    NormalizedProduct :=
  match ps with
  | [] =>
    { mpn := [], manufacturer := [], canonicalTitle := [], displayTitle := []
      specs := [], verbatimSections := [], images := [], datasheets := []
      overallConfidence := 0 }
  | base :: _ =>
    let effectiveMpn := canonicalMpnOpt.getD base.mpn
    let mpn := effectiveMpn
    let manufacturer := base.manufacturer
    let isRAVariant := endsW effectiveMpn "RA".toList
    let canonicalTitle :=
      match (ps.find? (fun p => p.sourceType = .oem ∧
          (optTruthy p.canonicalTitle).isSome)).bind (fun p => p.canonicalTitle) with
      | some t => t
      | none =>
        match (ps.find? (fun p => (optTruthy p.canonicalTitle).isSome)).bind
            (fun p => p.canonicalTitle) with
        | some t => t
        | none => manufacturer ++ ' ' :: mpn
    let displayTitle :=
      match (ps.find? (fun p => p.sourceType = .oem ∧
          (optTruthy p.displayTitle).isSome)).bind (fun p => p.displayTitle) with
      | some t => t
      | none =>
        match (ps.find? (fun p => (optTruthy p.displayTitle).isSome)).bind
            (fun p => p.displayTitle) with
        | some t => t
        | none => canonicalTitle
    let mergedSpecs0 := mergeSpecs ps
    let verbatimSections0 := (ps.map (fun p =>
      (p.verbatimSections.getD []).map (fun v =>
        ({ heading := v.heading, text := v.text, source := p.sourceUrl,
           confidence := p.confidence } : NormVerbSec)))).flatten
    let images := (ps.map (fun p =>
      (p.images.getD []).map (fun img =>
        ({ url := img.url, source := p.sourceUrl,
           confidence := p.confidence } : NormImg)))).flatten
    let datasheets := (ps.map (fun p =>
      (p.datasheets.getD []).map (fun d =>
        ({ url := d.url, label := d.label, source := p.sourceUrl } : NormDs)))).flatten
    let mergedSpecs :=
      if isRAVariant then
        objSet "Remote Alarm".toList
          ⟨"Yes".toList, ["variant:RA".toList], 95/100⟩ mergedSpecs0
      else mergedSpecs0
    let verbatimSections :=
      if isRAVariant then
        verbatimSections0 ++
          [{ heading := some "Variant".toList
             text := "Includes remote alarm for system monitoring.".toList
             source := "variant:RA".toList
             confidence := 95/100 }]
      else verbatimSections0
    let overallConfidence := (ps.map (fun p => p.confidence)).sum / (ps.length : ℚ)
    { mpn := effectiveMpn
      manufacturer := manufacturer
      canonicalTitle := canonicalTitle
      displayTitle := displayTitle
      specs := mergedSpecs
      verbatimSections := verbatimSections
      images := images
      datasheets := datasheets
      overallConfidence := overallConfidence }

/-- The auto-injected datasheet `ExtractedProduct` built from the cached
JSON file. -/
def mkDatasheetProduct (baseProduct : ExtractedProduct) (raw : Json) :
    ExtractedProduct :=
  { mpn := baseProduct.mpn
    manufacturer := baseProduct.manufacturer
    sourceUrl := "datasheet:".toList ++ baseProduct.mpn
    sourceType := .datasheet
    confidence := 95/100
    specs := []
    rawDatasheet := some raw }

/-- The working list the merge runs over: the (possibly
datasheet-injected) product list after in-place preprocessing. -/
def normWorkList (fsO : Option (Option Json))
    (products : List ExtractedProduct) : List ExtractedProduct :=
  match products with
  | [] => []
  | baseProduct :: _ =>
    (match (if products.any (fun p => p.sourceType = SourceType.datasheet)
            then (none : Option (Option Json)) else fsO) with
     | some (some raw) => mkDatasheetProduct baseProduct raw :: products
     | _ => products).map preprocessDatasheet

/-- `normalizeProducts` of `normalizeProduct.ts`: throws on an empty
list or an unreadable cached datasheet JSON; otherwise returns the
mutated caller list and the merged `NormalizedProduct`. -/
def normalizeProducts (fsO : Option (Option Json))
    (products : List ExtractedProduct) (canonicalMpnOpt : Option Str) :
    Except Str (List ExtractedProduct × NormalizedProduct) :=
  match products with
  | [] => .error "normalizeProducts called with empty product list".toList
  | baseProduct :: _ =>
    match (if products.any (fun p => p.sourceType = SourceType.datasheet)
           then (none : Option (Option Json)) else fsO) with
    | some none =>
      .error ("Failed to load datasheet JSON for ".toList ++ baseProduct.mpn)
    | _ =>
      .ok (products.map preprocessDatasheet,
           buildNormalized (normWorkList fsO products) canonicalMpnOpt)


/-!
## PDF extractor (`services/pdfExtractService.ts`)

`fetchPdfBuffer` and `pdf-parse` are effects: the model starts from the
raw text the PDF parser produced (`rawText`).  `detectModels` (three
global regex scans whose outcome the row-count gate never reads) enters
as the oracle `detect`, and the Gemini mapping call as the oracle
`gemini`; every theorem below quantifies over both.  The text
normalization, column repairs and the raw-spec-row assembly — the code
the row-count gate depends on — are modelled executably.
-/

/-- `normalizePdfText`: unicode dashes → `-`, NBSP → space, collapse
runs of space/tab to one space, collapse runs of ≥ 2 newlines. -/
def pdfDashFix (c : Char) : Char :=
  if (0x2010 ≤ c.val ∧ c.val ≤ 0x2015) ∨ c.val = 0x2212 then '-' else c

def pdfNbspFix (c : Char) : Char := if c.val = 0xa0 then ' ' else c

def isSpTab (c : Char) : Bool := c = ' ' ∨ c = '\t'

/-- `.replace(/[ \t]+/g, " ")` (fuel-based scan). -/
def collapseSpTabF (fuel : Nat) (s : Str) : Str :=
  match fuel with
  | 0 => s
  | fuel + 1 =>
    match s with
    | [] => []
    | c :: rest =>
      if isSpTab c then ' ' :: collapseSpTabF fuel (rest.dropWhile isSpTab)
      else c :: collapseSpTabF fuel rest

/-- `.replace(/\n{2,}/g, "\n")`: a run of ≥ 2 newlines becomes one (a
single newline is left as is, so every maximal run becomes one). -/
def collapseNlF (fuel : Nat) (s : Str) : Str :=
  match fuel with
  | 0 => s
  | fuel + 1 =>
    match s with
    | [] => []
    | c :: rest =>
      if c = '\n' then '\n' :: collapseNlF fuel (rest.dropWhile (· = '\n'))
      else c :: collapseNlF fuel rest

def normalizePdfText (text : Str) : Str :=
  let t1 := (text.map pdfDashFix).map pdfNbspFix
  collapseNlF t1.length (collapseSpTabF t1.length t1)

/-- Match `M\d-\d{3,4}-\d` at the head of `l` (greedy `{3,4}`: four
digits first, backtracking to three against the following `-\d`).
Returns the match length (8 or 9). -/
def matchModelTok (l : Str) : Option Nat :=
  match l with
  | 'M' :: d1 :: '-' :: rest =>
    if d1.isDigit then
      match rest with
      | a :: b :: c :: d :: '-' :: e :: _ =>
        if a.isDigit ∧ b.isDigit ∧ c.isDigit ∧ d.isDigit ∧ e.isDigit then some 9
        else
          match rest with
          | a' :: b' :: c' :: '-' :: e' :: _ =>
            if a'.isDigit ∧ b'.isDigit ∧ c'.isDigit ∧ e'.isDigit then some 8
            else none
          | _ => none
      | a :: b :: c :: '-' :: e :: _ =>
        if a.isDigit ∧ b.isDigit ∧ c.isDigit ∧ e.isDigit then some 8 else none
      | _ => none
    else none
  | _ => none

/-- `.replace(/(Model Number)/gi, "$1 ")`: insert a space after every
case-insensitive occurrence. -/
def pdfRepair1F (fuel : Nat) (s : Str) : Str :=
  match fuel with
  | 0 => s
  | fuel + 1 =>
    match s with
    | [] => []
    | c :: rest =>
      if ciStarts s "model number".toList then
        s.take 12 ++ ' ' :: pdfRepair1F fuel (s.drop 12)
      else c :: pdfRepair1F fuel rest

/-- `.replace(/(M\d-\d{3,4}-\d)(?=M\d-\d{3,4}-\d)/g, "$1 ")`: insert a
space between adjacent model tokens (the lookahead is not consumed). -/
def pdfRepair2F (fuel : Nat) (s : Str) : Str :=
  match fuel with
  | 0 => s
  | fuel + 1 =>
    match s with
    | [] => []
    | c :: rest =>
      match matchModelTok s with
      | some n =>
        if (matchModelTok (s.drop n)).isSome then
          s.take n ++ ' ' :: pdfRepair2F fuel (s.drop n)
        else c :: pdfRepair2F fuel rest
      | none => c :: pdfRepair2F fuel rest

/-- `.replace(/(\d)(M\d-\d{3,4}-\d)/g, "$1 $2")`. -/
def pdfRepair3F (fuel : Nat) (s : Str) : Str :=
  match fuel with
  | 0 => s
  | fuel + 1 =>
    match s with
    | [] => []
    | c :: rest =>
      if c.isDigit then
        match matchModelTok rest with
        | some n => c :: ' ' :: rest.take n ++ pdfRepair3F fuel (rest.drop n)
        | none => c :: pdfRepair3F fuel rest
      else c :: pdfRepair3F fuel rest

/-- The three column repairs applied by `extractSpecs` (and, on its own
copy, by `extractFromPdf` for model detection). -/
def pdfRepairs (s : Str) : Str :=
  let r1 := pdfRepair1F s.length s
  let r2 := pdfRepair2F r1.length r1
  pdfRepair3F r2.length r2

/-- All global matches of `/M\d-\d{3,4}-\d/g`. -/
def modelToksInF (fuel : Nat) (s : Str) : List Str :=
  match fuel with
  | 0 => []
  | fuel + 1 =>
    match s with
    | [] => []
    | _ :: rest =>
      match matchModelTok s with
      | some n => s.take n :: modelToksInF fuel (s.drop n)
      | none => modelToksInF fuel rest

def modelToksIn (s : Str) : List Str := modelToksInF s.length s

/-- `/Type\s*1/i`-style test at a position. -/
def rxTypeNAt (digit : Char) (s : Str) : Bool :=
  ciStarts s "type".toList &&
  (match (s.drop 4).dropWhile isJsSpace with
   | c :: _ => (c = digit : Bool)
   | [] => false)

/-- `/SPD|SCCR|kAIC|Type\s*1|Type\s*2|SurgePure/i.test(line)`. -/
def rxSidebarTerms (line : Str) : Bool :=
  let lower := jsLower line
  containsSub lower "spd".toList ∨ containsSub lower "sccr".toList ∨
  containsSub lower "kaic".toList ∨ anywhere (rxTypeNAt '1') lower ∨
  anywhere (rxTypeNAt '2') lower ∨ containsSub lower "surgepure".toList

/-- `/(isolates|downline|upline|surge|SPD|Panels|equipment)/i.test(line)`. -/
def rxOverviewTerms (line : Str) : Bool :=
  let lower := jsLower line
  containsSub lower "isolates".toList ∨ containsSub lower "downline".toList ∨
  containsSub lower "upline".toList ∨ containsSub lower "surge".toList ∨
  containsSub lower "spd".toList ∨ containsSub lower "panels".toList ∨
  containsSub lower "equipment".toList

/-- `/^\d{3,4}\/\d{3,4}/.test(line)`. -/
def rxVpr (line : Str) : Bool :=
  let try4 : Bool :=
    match line with
    | a :: b :: c :: d :: '/' :: e :: f :: g :: _ =>
      a.isDigit && b.isDigit && c.isDigit && d.isDigit &&
      e.isDigit && f.isDigit && g.isDigit
    | _ => false
  let try3 : Bool :=
    match line with
    | a :: b :: c :: '/' :: e :: f :: g :: _ =>
      a.isDigit && b.isDigit && c.isDigit && e.isDigit && f.isDigit && g.isDigit
    | _ => false
  try4 || try3

/-- Case-insensitive full-string equality against an ASCII pattern. -/
def ciEq (s pat : Str) : Bool := jsLower s = jsLower pat

/-- One anchored `.replace(/^pat$/i, repl)`. -/
def repairFull (s pat repl : Str) : Str := if ciEq s pat then repl else s

/-- One anchored `.replace(/^pat/i, repl)` (prefix). -/
def repairPre (s pat repl : Str) : Str :=
  if ciStarts s (jsLower pat) then repl ++ s.drop pat.length else s

/-- The label-prefix repair dictionary of `extractSpecs`, in source
order. -/
def repairKey (key : Str) : Str :=
  let k := repairFull key "AC Service".toList "AC Service Types".toList
  let k := repairFull k "Nomi".toList "Nominal AC Line Voltage (VRMS)".toList
  let k := repairFull k "Freq".toList "Frequency Range - USA/Euro Std".toList
  let k := repairFull k "Mult".toList "Multi Element ME* Protection Modes".toList
  let k := repairFull k "Lead".toList "Leads: 36” #14 AWG Stranded Copper".toList
  let k := repairPre k "Max ME*".toList
    "Max ME* Surge Current Per Mode / Per Ø / kA".toList
  let k := repairFull k "Tota".toList
    "Total Surge Capacity (kA @ 8x20 μsec pulse)".toList
  let k := repairPre k "Max Continuous".toList
    "Max Continuous Operating Voltage (MCOV)".toList
  let k := repairFull k "Warr".toList "Warranty".toList
  let k := repairPre k "Encl osure Size".toList "Enclosure Size (HxWxD)".toList
  let k := repairPre k "Encl osure Type".toList "Enclosure Type".toList
  let k := repairPre k "Over current Protection".toList
    "Overcurrent Protection".toList
  let k := repairFull k "Cert".toList "Certifications".toList
  let k := repairFull k "Perf".toList "Performance & Safety Testing Per".toList
  let k := repairFull k "Prot".toList "Protection Status Indicators".toList
  let k := repairFull k "Ship".toList "Shipping Weight LBS (Approx.)".toList
  let k := repairFull k "Enclosure".toList "Enclosure Type".toList
  let k := repairFull k "c-ETL-us Listed and Certified to the latest".toList
    "Certifications".toList
  repairFull k
    "Max Continuous Operating Voltage (MCOV) Operating Voltage (MCOV)".toList
    "Max Continuous Operating Voltage (MCOV)".toList

/-- `\s*(.+)$` on `rest` with `.` excluding line terminators: the greedy
whitespace prefix backs off until a non-empty, terminator-free suffix
remains. -/
def rowTailFrom (rest : Str) (j : Nat) : Option Str :=
  let t := rest.drop j
  if t ≠ [] ∧ t.all (fun c => ¬ isLineTerm c) then some t
  else
    match j with
    | 0 => none
    | j + 1 => rowTailFrom rest j

def rowTail (rest : Str) : Option Str :=
  rowTailFrom rest (rest.takeWhile isJsSpace).length

/-- Characters of the row-key class `[A-Za-z0-9\/\-\s\(\)%]`. -/
def isRowKeyCh (c : Char) : Bool :=
  c.isAlpha ∨ c.isDigit ∨ c = '/' ∨ c = '-' ∨ isJsSpace c ∨
  c = '(' ∨ c = ')' ∨ c = '%'

/-- The lazy group-1 extension of
`/^([A-Za-z][A-Za-z0-9\/\-\s\(\)%]+?)\s*(.+)$/`: try the shortest
group 1 first, growing one class character at a time. -/
def rowMatchGo : Str → Str → Option (Str × Str)
  | pre, rest =>
    match rowTail rest with
    | some g2 => some (pre, g2)
    | none =>
      match rest with
      | c :: rest' =>
        if isRowKeyCh c then rowMatchGo (pre ++ [c]) rest' else none
      | [] => none

/-- The row regex of `extractSpecs`.  With the lazy quantifier the
engine accepts as soon as two class characters are consumed and a
non-empty remainder exists, so on ordinary lines group 1 is just the
first two characters. -/
def rowMatch (line : Str) : Option (Str × Str) :=
  match line with
  | c0 :: c1 :: rest =>
    if c0.isAlpha ∧ isRowKeyCh c1 then rowMatchGo [c0, c1] rest else none
  | _ => none

structure PdfRawRow where
  key : Str
  raw : Str
  deriving Repr, DecidableEq

structure PdfScanState where
  rawRows : List PdfRawRow := []
  overviewLines : List Str := []
  sidebarBullets : List Str := []
  tableModels : List Str := []
  inSpecTable : Bool := false
  deriving Repr, DecidableEq

/-- The key used for numeric-only VPR continuation rows. -/
def vprKey : Str := "VPR Rating UL 1449, 5th Ed L-N/L-L @ 20kA".toList

/-- One iteration of the `extractSpecs` line loop. -/
def pdfLineStep (st : PdfScanState) (line : Str) : PdfScanState :=
  if ¬ st.inSpecTable ∧ line.length > 20 ∧ rxSidebarTerms line ∧
      endsW line "!".toList then
    { st with sidebarBullets := st.sidebarBullets ++ [line] }
  else if ciStarts line "model number".toList then
    let foundModels := modelToksIn line
    if foundModels.length > 0 then
      { st with tableModels := foundModels, inSpecTable := true }
    else st
  else
    -- overview capture falls through (no `continue` in the source)
    let st1 :=
      if ¬ st.inSpecTable ∧ line.length > 50 ∧
          ¬ ciStarts line "key features".toList ∧
          ¬ ciStarts line "for more information".toList ∧
          ¬ ciStarts line "model number".toList ∧
          ¬ (containsSub (jsLower line) "shipping weight".toList ∨
             containsSub (jsLower line) "certifications".toList) ∧
          rxOverviewTerms line then
        { st with overviewLines := st.overviewLines ++ [line] }
      else st
    if rxVpr line then
      { st1 with rawRows := st1.rawRows ++ [{ key := vprKey, raw := line }] }
    else if st1.inSpecTable ∧ st1.tableModels.length > 0 then
      if ciStarts line "key features".toList ∨
         ciStarts line "mach 1 data sheet".toList ∨
         ciStarts line "for ieee".toList then
        { st1 with inSpecTable := false }
      else if ciStarts line "listed and certified".toList then st1
      else
        match rowMatch line with
        | none => st1
        | some (g1, g2) =>
          let key := repairKey (collapseWs (jsTrim g1))
          let raw := jsTrim g2
          if ciEq key "AC Service Types".toList ∧ startsW raw "Types".toList then
            { st1 with rawRows := st1.rawRows ++
                [{ key := "AC Service Types".toList, raw := jsTrim (raw.drop 5) }] }
          else
            { st1 with rawRows := st1.rawRows ++ [{ key := key, raw := raw }] }
    else st1

/-- `extractSpecs`' assembly of raw rows / overview / sidebar from the
(normalized) text: apply its internal repairs, split into trimmed
non-blank lines, run the line loop. -/
def pdfScan (text : Str) : PdfScanState :=
  let lines := ((jsSplitCh '\n' (pdfRepairs text)).map jsTrim).filter
    (fun l => l ≠ [])
  lines.foldl pdfLineStep {}

def pdfRawRows (text : Str) : List PdfRawRow := (pdfScan text).rawRows

/-- The feature-list state of `extractFeatures`. -/
structure PdfFeatState where
  features : List Str := []
  currentFeature : Str := []
  inFeatures : Bool := false
  deriving Repr, DecidableEq

def pdfFeatPush (st : PdfFeatState) : PdfFeatState :=
  if st.currentFeature ≠ [] then
    { st with features := st.features ++ [jsTrim st.currentFeature],
              currentFeature := [] }
  else st

/-- One iteration of the `extractFeatures` loop (`raw` is the unstripped
line, `line` its trim). -/
def pdfFeatStep (st : PdfFeatState) (raw : Str) : PdfFeatState :=
  let line := jsTrim raw
  if ciStarts line "key features".toList then
    { pdfFeatPush st with inFeatures := true }
  else if ciStarts line "mach 1 data sheet".toList ∨
      ciStarts line "certifications".toList then
    { pdfFeatPush st with inFeatures := false }
  else if ¬ st.inFeatures then st
  else if startsW line "•".toList then
    { pdfFeatPush st with
        currentFeature := jsTrim ((line.drop 1).dropWhile isJsSpace) }
  else if (st.currentFeature ≠ [] : Bool) &&
      (startsW raw " ".toList || startsW raw "\t".toList ||
       (match line.head? with
        | some c => c.isLower && c.isAlpha
        | none => false)) then
    { st with currentFeature := st.currentFeature ++ ' ' :: jsTrim line }
  else if st.currentFeature ≠ [] then
    -- close the feature; a fresh bullet here is unreachable (handled above)
    pdfFeatPush st
  else st

/-- `extractFeatures` of `pdfExtractService.ts`. -/
def extractFeatures (text : Str) : List Str :=
  let st := (jsSplitCh '\n' text).foldl pdfFeatStep {}
  setOfList (pdfFeatPush st).features

/-- Errors `extractFromPdf` can raise past the download/parse stage. -/
inductive PdfErr
  | rowCount (n : Nat)
  | geminiFail (msg : Str)
  deriving Repr, DecidableEq

structure PdfSpec where
  model : Str
  key : Str
  value : Str
  sourceUrl : Str
  deriving Repr, DecidableEq

structure GeminiMapped where
  model : Str
  specs : List (Str × Option Str)
  overview : Option Str := none
  highlights : Option (List Str) := none
  deriving Repr, DecidableEq

structure GeminiQuery where
  targetModel : Option Str
  models : List Str
  rawRows : List PdfRawRow
  deriving Repr, DecidableEq

structure PdfExtractionResult where
  detectedModels : List Str
  specs : List PdfSpec
  rawRows : List PdfRawRow
  features : List Str
  rawText : Str
  overviewText : Option Str
  sidebarBullets : Option (List Str)
  deriving Repr, DecidableEq

/-- `extractFromPdf` of `pdfExtractService.ts`, from the parsed PDF text
onward.  `detect` models `detectModels` (whose outcome the row-count
gate never reads) and `gemini` the `mapWithGemini` call. -/
def extractFromPdf (rawText : Str) (detect : Str → List Str)
    (gemini : GeminiQuery → Except Str GeminiMapped) (pdfUrl : Str)
    (targetModel : Option Str) : Except PdfErr PdfExtractionResult :=
  let text := normalizePdfText rawText
  let repairedText := pdfRepairs text
  let detectedModels := detect repairedText
  let st := pdfScan text
  let rawRows := st.rawRows
  if rawRows.length < 18 then .error (.rowCount rawRows.length)
  else
    let resolvedTargetModel :=
      match targetModel with
      | some t => if t ≠ [] ∧ t ∈ detectedModels then some t
                  else detectedModels.head?
      | none => detectedModels.head?
    match gemini { targetModel := resolvedTargetModel, models := detectedModels,
                   rawRows := rawRows } with
    | .error e => .error (.geminiFail e)
    | .ok g =>
      .ok { detectedModels := detectedModels
            specs := g.specs.map (fun kv =>
              { model := g.model, key := kv.1, value := kv.2.getD "N/A".toList,
                sourceUrl := pdfUrl })
            rawRows := rawRows
            features := extractFeatures text
            rawText := rawText
            overviewText := g.overview
            sidebarBullets := g.highlights }


/-- Witness PDF texts: a "Model Number" header line carrying one model
token opens the spec table; each following line "Xy 1" is accepted by
the row regex (key = first two letters, value = "1"). -/
def c8Text17 : Str :=
  ("Model Number M1-1120-3\nAa 1\nAb 1\nAc 1\nAd 1\nAe 1\nAf 1\nAg 1" ++
   "\nAh 1\nAi 1\nAj 1\nAk 1\nAl 1\nAm 1\nAn 1\nAo 1\nAp 1\nAq 1").toList

def c8Text18 : Str := c8Text17 ++ "\nAr 1".toList

/-!
## Pipeline (`runProductPipeline` and `buildSynthesisInput.ts`)

The orchestrator composes the five services; all their effects are
gathered in a `PipelineOracles` bundle (fetch and Playwright keyed by
the crawled URL, the cheerio view keyed by the crawled page's html).
The modelled copy is the canonical one with MPN canonicalization and
the RA-variant handling; thrown service errors surface as `.error`.
-/

/-- `buildSynthesisInput` of `buildSynthesisInput.ts`. -/
def buildSynthesisInput (normalized : NormalizedProduct) : SynthesisInput :=
  { mpn := normalized.mpn
    manufacturer := normalized.manufacturer
    canonicalTitle := normalized.canonicalTitle
    specs := normalized.specs.map (fun kv => (kv.1, kv.2.value))
    images := normalized.images.map (·.url)
    datasheets := normalized.datasheets.map (fun d =>
      { url := d.url, label := d.label })
    verbatimDescriptors := normalized.verbatimSections.map (·.text) }

/-- A character of the class `[–—\s]` (en dash, em dash, JS
whitespace). -/
def isMpnDashWs (c : Char) : Bool :=
  c.val = 0x2013 ∨ c.val = 0x2014 ∨ isJsSpace c

/-- `.replace(/[–—\s]+/g, "-")`: every maximal run of dashes/whitespace
becomes a single `-`. -/
def dashNormF (fuel : Nat) (s : Str) : Str :=
  match fuel with
  | 0 => s
  | fuel + 1 =>
    match s with
    | [] => []
    | c :: rest =>
      if isMpnDashWs c then '-' :: dashNormF fuel (rest.dropWhile isMpnDashWs)
      else c :: dashNormF fuel rest

/-- `mpn.replace(/[–—\s]+/g, "-").toUpperCase()`. -/
def canonicalizeMpn (mpn : Str) : Str := jsUpper (dashNormF mpn.length mpn)

/-- The MPN the pipeline hands to discovery and extraction: the
canonical MPN with a trailing `RA` stripped (`.replace(/RA$/, "")`). -/
def lookupMpnOf (mpn : Str) : Str :=
  let canonicalMpn := canonicalizeMpn mpn
  if endsW canonicalMpn "RA".toList then
    canonicalMpn.take (canonicalMpn.length - 2)
  else canonicalMpn

structure PipelineOracles where
  serperO : Str → Except Str (List SerperRaw)
  hostOf : Str → Option Str
  squash : ℚ → ℚ
  fetchO : Str → Nat → Option FetchResponse
  pwO : Str → Option PwPage
  resolve : Str → Str → Option Str
  uriDecode : Str → Option Str
  domO : Str → Option DomView
  fsO : Option (Option Json)
  llm : Except Unit Json

/-- The `result.extraction` summary object.  `extraction.specs?.length`
is `undefined` (`specs` is a plain object with no `length` property), so
`specsCount` is constantly 0. -/
structure ExtractionSummary where
  ok : Bool
  qualityScore : Option ℚ
  specsCount : Nat
  imagesCount : Nat
  datasheetsCount : Nat
  images : List Str
  datasheets : List DsLink
  sourceUrl : Str
  deriving Repr, DecidableEq

def extractionSummaryOf (extraction : ExtractResult) (sourceUrl : Str) :
    ExtractionSummary :=
  { ok := extraction.ok
    qualityScore := extraction.qualityScore
    specsCount := 0
    imagesCount := extraction.images.length
    datasheetsCount := extraction.datasheets.length
    images := extraction.images
    datasheets := extraction.datasheets
    sourceUrl := sourceUrl }

structure ConfidenceBreakdown where
  discovery : ℚ
  crawl : ℚ
  extraction : ℚ
  synthesis : ℚ
  deriving Repr, DecidableEq

structure SpecRow where
  name : Str
  value : Str
  deriving Repr, DecidableEq

/-- The successful `result.final` object: the spread of the synthesis
output plus the pipeline's own fields. -/
structure FinalRecord where
  canonicalTitle : Str
  displayTitle : Option Str
  keyFeatures : List Str
  overview : Str
  shortDescription : Str
  longDescription : Str
  bulletHighlights : List Str
  seoDescription : Str
  disclaimers : List Str
  _confidence : Option ℚ
  specTable : List SpecRow
  confidenceBreakdown : ConfidenceBreakdown
  productType : Option Str
  usable : Bool
  confidence : ℚ
  images : List Str
  datasheets : List DsLink
  sourceUrl : Str
  deriving Repr, DecidableEq

/-- `result.final`: either an early-exit failure record
(`usable: false` with a `failureReason`) or the completed record. -/
inductive PipelineFinal
  | failed (failureReason : Str) (confidence : ℚ)
  | completed (f : FinalRecord)
  deriving Repr, DecidableEq

structure PipelineResult where
  mpn : Str
  manufacturer : Str
  discovery : Option DiscoveryResult
  crawl : Option CrawlResult
  extraction : Option ExtractionSummary
  synthesis : Option SynthesisOutput
  final : PipelineFinal
  deriving Repr, DecidableEq

/-- `Number(q.toFixed(2))` for the nonnegative confidences the pipeline
rounds: half-up to two decimals. -/
def round2 (q : ℚ) : ℚ := (⌊q * 100 + 1/2⌋ : ℚ) / 100

/-- `[primaryProductUrl, ...backupUrls].filter(Boolean)`. -/
def urlsToTry (discovery : DiscoveryResult) : List Str :=
  (discovery.primaryProductUrl.toList ++ discovery.backupUrls).filter
    (fun u => u ≠ [])

/-- The crawl loop: try each URL in turn, stopping at the first truthy
html; the loop variable retains the *last* attempted result. -/
def crawlLoop (O : PipelineOracles) : List Str → Option CrawlResult
  | [] => none
  | url :: rest =>
    let crawl := crawlPage (O.fetchO url) (O.pwO url) url
    if (optTruthy crawl.html).isSome then some crawl
    else
      match rest with
      | [] => some crawl
      | _ :: _ => crawlLoop O rest

/-- The `ExtractedProduct` literal handed to `normalizeProducts`: the
spread of the extraction result (which has no `sourceType`/`confidence`
fields, so those stay), with images re-wrapped as `{url}` objects. -/
def mkPipelineProduct (extraction : ExtractResult) : ExtractedProduct :=
  { mpn := extraction.mpn
    manufacturer := extraction.manufacturer.getD []
    sourceUrl := extraction.sourceUrl
    sourceType := .distributor
    confidence := extraction.qualityScore.getD 0
    canonicalTitle := some extraction.canonicalTitle
    displayTitle := extraction.displayTitle
    specs := extraction.specs
    verbatimSections := none
    images := some (extraction.images.map (fun u => { url := u }))
    datasheets := some extraction.datasheets
    rawDatasheet := none }

def discoveryConfQ : ConfLevel → ℚ
  | .high => 9/10
  | .medium => 6/10
  | .low => 3/10

/-- `keyFeatures.map(label/value split).filter(Boolean)`. -/
def pipelineSpecTable (synthesis : SynthesisOutput) : List SpecRow :=
  synthesis.keyFeatures.filterMap fun f =>
    match f.findIdx? (fun c => c = ':') with
    | none => none
    | some idx =>
      some { name := jsTrim (f.take idx), value := jsTrim (f.drop (idx + 1)) }

def pipelineProductType (synthesis : SynthesisOutput) : Option Str :=
  let text := jsLower ((synthesis.displayTitle.getD []) ++ ' ' :: synthesis.overview)
  if containsSub text "surge".toList then some "Surge Protection Device".toList
  else if containsSub text "power supply".toList then some "Power Supply".toList
  else if containsSub text "battery".toList then some "Battery".toList
  else if containsSub text "relay".toList then some "Relay".toList
  else none

def raLine : Str :=
  " This RA variant includes a remote alarm feature for system monitoring and alerting.".toList

/-- Step 7, the RA variant injection applied to a usable final record. -/
def applyRAPatch (canonicalMpn : Str) (f : FinalRecord) : FinalRecord :=
  { f with
      displayTitle := some canonicalMpn
      keyFeatures := f.keyFeatures ++ ["Remote Alarm: Yes".toList]
      specTable := f.specTable ++
        [{ name := "Remote Alarm".toList, value := "Yes".toList }]
      overview := if f.overview ≠ [] then f.overview ++ raLine else f.overview
      shortDescription :=
        if f.shortDescription ≠ [] then f.shortDescription ++ raLine
        else f.shortDescription
      longDescription :=
        if f.longDescription ≠ [] then f.longDescription ++ raLine
        else f.longDescription }

/-- Step 6: the `result.final` literal before the RA patch. -/
def pipelineBase (discovery : DiscoveryResult) (crawl : CrawlResult)
    (extraction : ExtractResult) (synthesis : SynthesisOutput) : FinalRecord :=
  let discoveryConfidence := discoveryConfQ discovery.confidence
  let crawlConfidence : ℚ := if crawl.usedPlaywright then 6/10 else 85/100
  let extractionConfidence := extraction.qualityScore.getD 0
  let synthesisConfidence := synthesis._confidence.getD 0
  let finalConfidence :=
    25/100 * discoveryConfidence + 20/100 * crawlConfidence +
    30/100 * extractionConfidence + 25/100 * synthesisConfidence
  { canonicalTitle := synthesis.canonicalTitle
    displayTitle := synthesis.displayTitle
    keyFeatures := synthesis.keyFeatures
    overview := synthesis.overview
    shortDescription := synthesis.shortDescription
    longDescription := synthesis.longDescription
    bulletHighlights := synthesis.bulletHighlights
    seoDescription := synthesis.seoDescription
    disclaimers := synthesis.disclaimers
    _confidence := synthesis._confidence
    specTable := pipelineSpecTable synthesis
    confidenceBreakdown :=
      { discovery := discoveryConfidence
        crawl := crawlConfidence
        extraction := extractionConfidence
        synthesis := synthesisConfidence }
    productType := pipelineProductType synthesis
    usable := decide (65/100 ≤ finalConfidence)
    confidence := round2 finalConfidence
    images := extraction.images
    datasheets := extraction.datasheets
    sourceUrl := crawl.finalUrl }

/-- Step 6 + step 7: the completed final record from the stage
outputs. -/
def pipelineFinish (canonicalMpn : Str) (isRAVariant : Bool)
    (discovery : DiscoveryResult) (crawl : CrawlResult)
    (extraction : ExtractResult) (synthesis : SynthesisOutput) : FinalRecord :=
  let fin0 := pipelineBase discovery crawl extraction synthesis
  if isRAVariant = true ∧ fin0.usable = true then applyRAPatch canonicalMpn fin0
  else fin0

/-- `runProductPipeline` (the canonical copy with MPN canonicalization
and RA-variant handling). -/
def runProductPipeline (O : PipelineOracles) (mpn manufacturer : Str) :
    Except Str PipelineResult :=
  let canonicalMpn := canonicalizeMpn mpn
  let isRAVariant := endsW canonicalMpn "RA".toList
  let lookupMpn := lookupMpnOf mpn
  match discoverProductSources O.serperO O.hostOf O.squash lookupMpn
      manufacturer with
  | .error e => .error e
  | .ok discovery =>
    if discovery.primaryProductUrl.getD [] = [] ∧
        discovery.backupUrls.length = 0 then
      .ok { mpn := canonicalMpn, manufacturer := manufacturer
            discovery := some discovery, crawl := none, extraction := none
            synthesis := none
            final := .failed "NO_PRODUCT_URLS".toList 0 }
    else
      match crawlLoop O ((urlsToTry discovery).take 3) with
      | none =>
        .ok { mpn := canonicalMpn, manufacturer := manufacturer
              discovery := some discovery, crawl := none, extraction := none
              synthesis := none
              final := .failed "CRAWL_FAILED".toList 0 }
      | some crawl =>
        match optTruthy crawl.html with
        | none =>
          .ok { mpn := canonicalMpn, manufacturer := manufacturer
                discovery := some discovery, crawl := none, extraction := none
                synthesis := none
                final := .failed "CRAWL_FAILED".toList 0 }
        | some htmlV =>
          let extraction := extractFromHtml O.resolve O.uriDecode
            { html := crawl.html, sourceUrl := crawl.finalUrl
              mpn := lookupMpn, manufacturer := some manufacturer }
            (O.domO htmlV)
          if extraction.ok = false ∨ extraction.qualityScore.getD 0 < 3/10 then
            .ok { mpn := canonicalMpn, manufacturer := manufacturer
                  discovery := some discovery, crawl := some crawl
                  extraction := some (extractionSummaryOf extraction crawl.finalUrl)
                  synthesis := none
                  final := .failed "LOW_EXTRACTION_QUALITY".toList
                    (extraction.qualityScore.getD 0) }
          else
            match normalizeProducts O.fsO [mkPipelineProduct extraction]
                (some canonicalMpn) with
            | .error e => .error e
            | .ok (_, normalized) =>
              match synthesizeProductContent O.llm
                  (buildSynthesisInput normalized) with
              | .error e => .error e
              | .ok synthesis =>
                .ok { mpn := canonicalMpn, manufacturer := manufacturer
                      discovery := some discovery, crawl := some crawl
                      extraction :=
                        some (extractionSummaryOf extraction crawl.finalUrl)
                      synthesis := some synthesis
                      final := .completed
                        (pipelineFinish canonicalMpn isRAVariant discovery
                          crawl extraction synthesis) }

/-- The unrounded confidence blend recovered from the breakdown the
final record stores. -/
def blendOf (bd : ConfidenceBreakdown) : ℚ :=
  25/100 * bd.discovery + 20/100 * bd.crawl + 30/100 * bd.extraction +
  25/100 * bd.synthesis


/-! ### Concrete pipeline runs (C1 / C10 scenarios) -/

def c1UrlA : Str := "https://a.example/product/ab1".toList
def c1DsUrl : Str := "https://a.example/ds.pdf".toList

/-- The rendered page of the headless-browser fallback (short, so the
non-product branch returns it with low confidence — but with html). -/
def c1Html : Str := "<p>AB1 product</p>".toList

def c1Dom : DomView :=
  { docTitleText := "AB1".toList
    anchors := [{ href := "ds.pdf".toList, text := "Datasheet".toList }]
    tables := [[["K1".toList, "V1".toList], ["K2".toList, "V2".toList],
                ["K3".toList, "V3".toList], ["K4".toList, "V4".toList],
                ["K5".toList, "V5".toList], ["K6".toList, "V6".toList],
                ["K7".toList, "V7".toList], ["K8".toList, "V8".toList],
                ["K9".toList, "V9".toList], ["K10".toList, "V10".toList],
                ["K11".toList, "V11".toList]]] }

def c1Json : Json :=
  .obj [("keyFeatures".toList,
    .arr [.str "K1: V1".toList, .str "K2: V2".toList, .str "K3: V3".toList,
          .str "K4: V4".toList, .str "K5: V5".toList])]

def c1O : PipelineOracles :=
  { serperO := fun _ => .ok [{ link := some c1UrlA }]
    hostOf := fun _ => some "a.example".toList
    squash := fun _ => 1/2
    fetchO := fun _ _ => none
    pwO := fun _ => some { html := c1Html, url := c1UrlA }
    resolve := fun href _ => some ("https://a.example/".toList ++ href)
    uriDecode := fun _ => none
    domO := fun _ => some c1Dom
    fsO := none
    llm := .ok c1Json }

def c1Disc : DiscoveryResult :=
  { primaryProductUrl := some c1UrlA
    backupUrls := []
    pdfUrls := []
    confidence := .high }

def c1Crawl : CrawlResult :=
  { finalUrl := c1UrlA
    html := some c1Html
    usedPlaywright := true
    contentType := some "text/html".toList
    fallbackReason := some .non_product
    crawlConfidence := some .low }

def c1Specs : List (Str × Str) :=
  [("K1".toList, "V1".toList), ("K2".toList, "V2".toList),
   ("K3".toList, "V3".toList), ("K4".toList, "V4".toList),
   ("K5".toList, "V5".toList), ("K6".toList, "V6".toList),
   ("K7".toList, "V7".toList), ("K8".toList, "V8".toList),
   ("K9".toList, "V9".toList), ("K10".toList, "V10".toList),
   ("K11".toList, "V11".toList)]

def c1Ext : ExtractResult :=
  { ok := true
    reason := none
    qualityScore := some (11/20)
    sourceUrl := c1UrlA
    displayTitle := some "AB1".toList
    canonicalTitle := "AB1".toList
    productTitle := "AB1".toList
    mpn := "AB1".toList
    manufacturer := some "MFR".toList
    specs := c1Specs
    overview := none
    images := []
    datasheets := [{ url := c1DsUrl, label := some "Datasheet".toList }] }

def c1Norm : NormalizedProduct :=
  { mpn := "AB1".toList
    manufacturer := "MFR".toList
    canonicalTitle := "AB1".toList
    displayTitle := "AB1".toList
    specs := c1Specs.map (fun kv => (kv.1,
      ({ value := kv.2, sources := [c1UrlA], confidence := 11/20 } :
        NormSpecEntry)))
    verbatimSections := []
    images := []
    datasheets := [{ url := c1DsUrl, label := some "Datasheet".toList,
                     source := c1UrlA }]
    overallConfidence := 11/20 }

def c1Synth : SynthesisOutput :=
  { canonicalTitle := "AB1".toList
    displayTitle := some "AB1".toList
    keyFeatures := ["K1: V1".toList, "K2: V2".toList, "K3: V3".toList,
                    "K4: V4".toList, "K5: V5".toList]
    overview := ("The AB1 is a digital input module designed for industrial automation systems. Based on available specifications, it supports V1, V2, V3, V4, V5.").toList
    shortDescription := "The AB1 is a digital input module featuring K1: V1 and K2: V2.".toList
    longDescription := []
    bulletHighlights := ["K1: V1".toList, "K2: V2".toList, "K3: V3".toList,
                         "K4: V4".toList, "K5: V5".toList]
    seoDescription := []
    disclaimers := ["Installation should follow local electrical codes and be performed by qualified personnel.".toList]
    _confidence := some (61/110) }

def c1Final : FinalRecord :=
  pipelineFinish (canonicalizeMpn "AB1".toList)
    (endsW (canonicalizeMpn "AB1".toList) "RA".toList) c1Disc c1Crawl c1Ext
    c1Synth

def c10UrlA : Str := "https://a.example/product/ab1e".toList

def c10Html : Str := "<p>AB1E product</p>".toList

def c10Dom : DomView :=
  { docTitleText := "AB1E".toList
    anchors := [{ href := "ds.pdf".toList, text := "Datasheet".toList }]
    tables := [[["K1".toList, "V1".toList], ["K2".toList, "V2".toList],
                ["K3".toList, "V3".toList], ["K4".toList, "V4".toList],
                ["K5".toList, "V5".toList], ["K6".toList, "V6".toList],
                ["K7".toList, "V7".toList], ["K8".toList, "V8".toList],
                ["K9".toList, "V9".toList], ["K10".toList, "V10".toList],
                ["K11".toList, "V11".toList]]] }

def c10Json : Json :=
  .obj [("keyFeatures".toList,
    .arr [.str "K1: V1".toList, .str "K2: V2".toList, .str "K3: V3".toList,
          .str "K4: V4".toList, .str "K5: V5".toList, .str "K6: V6".toList,
          .str "K7: V7".toList, .str "K8: V8".toList, .str "K9: V9".toList,
          .str "K10: V10".toList, .str "K11: V11".toList])]

def c10O : PipelineOracles :=
  { serperO := fun _ => .ok [{ link := some c10UrlA }]
    hostOf := fun _ => some "a.example".toList
    squash := fun _ => 1/2
    fetchO := fun _ _ => none
    pwO := fun _ => some { html := c10Html, url := c10UrlA }
    resolve := fun href _ => some ("https://a.example/".toList ++ href)
    uriDecode := fun _ => none
    domO := fun _ => some c10Dom
    fsO := none
    llm := .ok c10Json }

def c10Disc : DiscoveryResult :=
  { primaryProductUrl := some c10UrlA
    backupUrls := []
    pdfUrls := []
    confidence := .high }

def c10Crawl : CrawlResult :=
  { finalUrl := c10UrlA
    html := some c10Html
    usedPlaywright := true
    contentType := some "text/html".toList
    fallbackReason := some .non_product
    crawlConfidence := some .low }

def c10Ext : ExtractResult :=
  { ok := true
    reason := none
    qualityScore := some (11/20)
    sourceUrl := c10UrlA
    displayTitle := some "AB1E".toList
    canonicalTitle := "AB1E".toList
    productTitle := "AB1E".toList
    mpn := "AB1E".toList
    manufacturer := some "MFR".toList
    specs := c1Specs
    overview := none
    images := []
    datasheets := [{ url := c1DsUrl, label := some "Datasheet".toList }] }

def c10Norm : NormalizedProduct :=
  { mpn := "AB1ERA".toList
    manufacturer := "MFR".toList
    canonicalTitle := "AB1E".toList
    displayTitle := "AB1E".toList
    specs := c1Specs.map (fun kv => (kv.1,
      ({ value := kv.2, sources := [c10UrlA], confidence := 11/20 } :
        NormSpecEntry))) ++
      [("Remote Alarm".toList,
        ({ value := "Yes".toList, sources := ["variant:RA".toList],
           confidence := 95/100 } : NormSpecEntry))]
    verbatimSections :=
      [{ heading := some "Variant".toList
         text := "Includes remote alarm for system monitoring.".toList
         source := "variant:RA".toList
         confidence := 95/100 }]
    images := []
    datasheets := [{ url := c1DsUrl, label := some "Datasheet".toList,
                     source := c10UrlA }]
    overallConfidence := 11/20 }

def c10Synth : SynthesisOutput :=
  { canonicalTitle := "AB1E".toList
    displayTitle := some "AB1E".toList
    keyFeatures := ["K1: V1".toList, "K2: V2".toList, "K3: V3".toList,
                    "K4: V4".toList, "K5: V5".toList, "K6: V6".toList,
                    "K7: V7".toList, "K8: V8".toList, "K9: V9".toList,
                    "K10: V10".toList, "K11: V11".toList]
    overview := ("The AB1E is a digital input module designed for industrial automation systems. Based on available specifications, it supports V1, V2, V3, V4, V5, V6, V7, V8, V9, V10, V11.").toList
    shortDescription := "The AB1E is a digital input module featuring K1: V1 and K2: V2.".toList
    longDescription := []
    bulletHighlights := ["K1: V1".toList, "K2: V2".toList, "K3: V3".toList,
                         "K4: V4".toList, "K5: V5".toList, "K6: V6".toList,
                         "K7: V7".toList, "K8: V8".toList, "K9: V9".toList,
                         "K10: V10".toList, "K11: V11".toList]
    seoDescription := []
    disclaimers := ["Installation should follow local electrical codes and be performed by qualified personnel.".toList]
    _confidence := some (85/100) }

def c10Final : FinalRecord :=
  pipelineFinish (canonicalizeMpn "AB1ERA".toList)
    (endsW (canonicalizeMpn "AB1ERA".toList) "RA".toList) c10Disc c10Crawl
    c10Ext c10Synth


/-!
## Theorems

Everything from here on is a lemma or a claim theorem; all definitions
appear above.
-/

/-- A successful Tier-1 attempt always carries a non-null body. -/
theorem crawlAttempt_inl_html {fetchO : Nat → Option FetchResponse} {i : Nat}
    {ok : CrawlResult} (h : crawlAttempt fetchO i = .inl ok) :
    ∃ b, ok.html = some b := by
  unfold crawlAttempt at h
  cases hf : tryFetchOnce fetchO i with
  | none => rw [hf] at h; cases h
  | some r =>
    rw [hf] at h
    by_cases h1 : looksLikeProductPage r.html = true
    · by_cases h2 : hasUsableProductSignals r.html = true
      · simp only [h1, h2, not_true_eq_false, if_false, if_neg] at h
        cases h
        exact ⟨r.html, rfl⟩
      · simp [h1, h2] at h
    · simp [h1] at h

/-- A failing Tier-1 attempt records either `fetch_failed` or
`non_product`, never any other reason. -/
theorem crawlAttempt_inr_reason {fetchO : Nat → Option FetchResponse} {i : Nat}
    {re : FallbackReason} (h : crawlAttempt fetchO i = .inr re) :
    re = .fetch_failed ∨ re = .non_product := by
  unfold crawlAttempt at h
  cases hf : tryFetchOnce fetchO i with
  | none => rw [hf] at h; cases h; exact Or.inl rfl
  | some r =>
    rw [hf] at h
    by_cases h1 : looksLikeProductPage r.html = true
    · by_cases h2 : hasUsableProductSignals r.html = true
      · simp [h1, h2] at h
      · simp only [h1, h2] at h
        simp at h
        exact Or.inr h.symm
    · simp only [h1] at h
      simp at h
      exact Or.inr h.symm

/-- In `crawlWithPlaywright`, a null body forces low confidence. -/
theorem crawlWithPlaywright_html_none {pw : Option PwPage} {url : Str}
    {re : Option FallbackReason}
    (h : (crawlWithPlaywright pw url re).html = none) :
    (crawlWithPlaywright pw url re).crawlConfidence = some .low := by
  cases pw with
  | none => rfl
  | some page =>
    unfold crawlWithPlaywright at h ⊢
    by_cases hu : hasUsableProductSignals page.html = true
    · simp [hu] at h
    · simp [hu] at h

/-- C9: every `CrawlResult` produced by `crawlPage` — through the Tier-1
fetch path or the headless-browser path — has `crawlConfidence = "low"`
whenever its `html` field is null. -/
theorem C9_crawl_null_html_implies_low_confidence
    (fetchO : Nat → Option FetchResponse) (pw : Option PwPage) (url : Str)
    (h : (crawlPage fetchO pw url).html = none) :
    (crawlPage fetchO pw url).crawlConfidence = some .low := by
  unfold crawlPage at h ⊢
  cases h0 : crawlAttempt fetchO 0 with
  | inl ok =>
    rw [h0] at h; dsimp only at h
    obtain ⟨b, hb⟩ := crawlAttempt_inl_html h0
    rw [hb] at h; cases h
  | inr re0 =>
    rw [h0] at h; dsimp only at h
    cases h1 : crawlAttempt fetchO 1 with
    | inl ok =>
      rw [h1] at h; dsimp only at h
      obtain ⟨b, hb⟩ := crawlAttempt_inl_html h1
      rw [hb] at h; cases h
    | inr re1 =>
      rw [h1] at h; dsimp only at h
      exact crawlWithPlaywright_html_none h

/-- C9 witness: a concrete crawl (every fetch fails, navigation throws)
whose result has null html, and the theorem then yields low confidence. -/
theorem C9_crawl_null_html_witness :
    (crawlPage (fun _ => none) none "https://w9.example".toList).html = none ∧
    (crawlPage (fun _ => none) none "https://w9.example".toList).crawlConfidence
      = some .low :=
  ⟨rfl, C9_crawl_null_html_implies_low_confidence (fun _ => none) none
    "https://w9.example".toList rfl⟩

/-- C5 counterexample: both Tier-1 attempts fail validation (the body is
too short for `isValidHtml`) and the Playwright navigation throws; the
returned `CrawlResult` does have `html = null` and low confidence, but
its `fallbackReason` is `fetch_failed`, not `captcha_or_js` as claimed —
`crawlWithPlaywright` only defaults to `captcha_or_js` when no Tier-1
reason was recorded, and the Tier-1 loop always records one. -/
theorem C5_playwright_throw_reason_counterexample :
    (tryFetchOnce (fun _ => some ⟨"short".toList, "https://c5.example".toList, none⟩) 0
       = none) ∧
    (tryFetchOnce (fun _ => some ⟨"short".toList, "https://c5.example".toList, none⟩) 1
       = none) ∧
    (crawlPage (fun _ => some ⟨"short".toList, "https://c5.example".toList, none⟩)
        none "https://c5.example".toList).html = none ∧
    (crawlPage (fun _ => some ⟨"short".toList, "https://c5.example".toList, none⟩)
        none "https://c5.example".toList).crawlConfidence = some .low ∧
    (crawlPage (fun _ => some ⟨"short".toList, "https://c5.example".toList, none⟩)
        none "https://c5.example".toList).fallbackReason
      ≠ some .captcha_or_js := by
  refine ⟨rfl, rfl, rfl, rfl, ?_⟩
  intro h
  cases h

/-- C5 (amended): when both Tier-1 attempts fail and the headless-browser
navigation throws, the result has `html = null`, `crawlConfidence = low`
and `fallbackReason` equal to the reason recorded by the *last failing
Tier-1 attempt* (`fetch_failed` or `non_product`) — never `captcha_or_js`. -/
theorem C5_playwright_throw_amended
    (fetchO : Nat → Option FetchResponse) (url : Str)
    (re0 re1 : FallbackReason)
    (h0 : crawlAttempt fetchO 0 = .inr re0)
    (h1 : crawlAttempt fetchO 1 = .inr re1) :
    (crawlPage fetchO none url).html = none ∧
    (crawlPage fetchO none url).crawlConfidence = some .low ∧
    (crawlPage fetchO none url).fallbackReason = some re1 ∧
    (re1 = .fetch_failed ∨ re1 = .non_product) := by
  unfold crawlPage
  rw [h0, h1]
  exact ⟨rfl, rfl, rfl, @crawlAttempt_inr_reason fetchO 1 re1 h1⟩

/-- C5 witness: the amended theorem applied at a concrete input where
every fetch fails outright. -/
theorem C5_playwright_throw_amended_witness :
    (crawlPage (fun _ => none) none "https://w5.example".toList).html = none ∧
    (crawlPage (fun _ => none) none "https://w5.example".toList).crawlConfidence
      = some .low ∧
    (crawlPage (fun _ => none) none "https://w5.example".toList).fallbackReason
      = some .fetch_failed ∧
    (FallbackReason.fetch_failed = .fetch_failed ∨
      FallbackReason.fetch_failed = .non_product) :=
  C5_playwright_throw_amended (fun _ => none) "https://w5.example".toList
    .fetch_failed .fetch_failed rfl rfl

/-- C7: for every ranked discovery result set with at least one
candidate, `discoverProductSources` derives its confidence from the top
two scores: `high` with a single candidate, else `high` when
`s1 − s2 > 0.15`, `medium` when `0.05 < s1 − s2 ≤ 0.15`, `low`
otherwise. -/
theorem C7_discovery_confidence_from_separation
    (serperO : Str → Except Str (List SerperRaw)) (hostOf : Str → Option Str)
    (squash : ℚ → ℚ) (mpn mfg : Str) (raws : List SerperRaw)
    (s1 : ScoredUrl) (rest : List ScoredUrl)
    (hq : serperO (mainDiscoveryQuery mpn mfg) = .ok raws)
    (hs : scoreResults hostOf squash (normalizeSerper raws) mpn mfg = s1 :: rest) :
    ∃ d, discoverProductSources serperO hostOf squash mpn mfg = .ok d ∧
      d.confidence =
        (match rest with
         | [] => ConfLevel.high
         | s2 :: _ =>
           if s1.score - s2.score > 15/100 then .high
           else if s1.score - s2.score > 5/100 then .medium
           else .low) := by
  unfold discoverProductSources runSerperQuery
  rw [hq]
  dsimp only
  simp only [hs]
  refine ⟨_, rfl, ?_⟩
  cases rest <;> rfl

/-- C7 witness: a single-candidate result set yields confidence `high`. -/
theorem C7_discovery_confidence_witness :
    ∃ d,
      discoverProductSources
        (fun _ => .ok [{ link := some "https://one.example/p/w7".toList }])
        (fun _ => none) id "W7-1".toList "Mfg7".toList = .ok d ∧
      d.confidence = ConfLevel.high :=
  C7_discovery_confidence_from_separation
    (fun _ => .ok [{ link := some "https://one.example/p/w7".toList }])
    (fun _ => none) id "W7-1".toList "Mfg7".toList
    [{ link := some "https://one.example/p/w7".toList }] _ _ rfl rfl


/-- Shared evaluation list for the extractor. -/
theorem extract_guardrails_pass
    (resolve : Str → Str → Option Str) (uriDecode : Str → Option Str)
    (args : ExtractArgs) (dom : DomView) (html : Str)
    (h1 : args.html = some html) (h2 : ¬ html = [])
    (h3 : ¬ (html.length < 12000 ∧ looksLikeChallenge (jsLower html) = true))
    (h4 : containsSub (stripDashSpace (jsLower html))
            (jsLower (stripDashSpace args.mpn)) = true ∨
          looksLikeDistributor args.sourceUrl = true) :
    extractFromHtml resolve uriDecode args (some dom) =
      extractCore resolve uriDecode args html dom := by
  unfold extractFromHtml
  rw [h1]
  dsimp only
  rw [if_neg h2, if_neg h3, if_neg ?_]
  push_neg
  intro hmpn
  rcases h4 with h4 | h4
  · exact absurd h4 hmpn
  · exact h4

/-- The quality gate itself: the result carries the score, and
`ok`/`reason` are decided by a strict `< 0.30` comparison. -/
theorem qualityGate_spec (q : ℚ) (base : ExtractResult)
    (hok : base.ok = true) (hreason : base.reason = none)
    (hq : base.qualityScore = some q) :
    (qualityGate q base).qualityScore = some q ∧
      (q < 30/100 →
        (qualityGate q base).ok = false ∧
        (qualityGate q base).reason = some .low_quality) ∧
      (30/100 ≤ q →
        (qualityGate q base).ok = true ∧
        (qualityGate q base).reason = none) := by
  unfold qualityGate
  split
  next hlt =>
    exact ⟨hq, fun _ => ⟨rfl, rfl⟩, fun hge => absurd hlt (not_lt.2 hge)⟩
  next hlt =>
    exact ⟨hq, fun h => absurd h hlt, fun _ => ⟨hok, hreason⟩⟩

/-- The quality gate of `extractCore`. -/
theorem extractCore_quality_gate
    (resolve : Str → Str → Option Str) (uriDecode : Str → Option Str)
    (args : ExtractArgs) (html : Str) (dom : DomView) :
    ∃ q, (extractCore resolve uriDecode args html dom).qualityScore = some q ∧
      (q < 30/100 →
        (extractCore resolve uriDecode args html dom).ok = false ∧
        (extractCore resolve uriDecode args html dom).reason = some .low_quality) ∧
      (30/100 ≤ q →
        (extractCore resolve uriDecode args html dom).ok = true ∧
        (extractCore resolve uriDecode args html dom).reason = none) := by
  unfold extractCore
  dsimp only
  exact ⟨_, qualityGate_spec _ _ rfl rfl rfl⟩

/-- C6 counterexample: a page whose only quality feature is specs
(`hasSpecs = 1`, everything else 0) has quality score exactly `0.30`,
and the extractor returns `ok = true` with no reason — not `ok = false`
with `low_quality` as the claim states (the gate is `score < 0.30`, so
the floor value passes). -/
theorem C6_quality_floor_counterexample :
    (extractFromHtml (fun _ _ => none) (fun _ => none)
      { html := some "AB1 product page".toList
        sourceUrl := "https://c6.example/x".toList
        mpn := "AB-1".toList }
      (some { tables := [[["Volt".toList, "230".toList],
                          ["Amp".toList, "10".toList],
                          ["Hz".toList, "50".toList]]] })).qualityScore
        = some (30/100) ∧
    (extractFromHtml (fun _ _ => none) (fun _ => none)
      { html := some "AB1 product page".toList
        sourceUrl := "https://c6.example/x".toList
        mpn := "AB-1".toList }
      (some { tables := [[["Volt".toList, "230".toList],
                          ["Amp".toList, "10".toList],
                          ["Hz".toList, "50".toList]]] })).ok = true ∧
    (extractFromHtml (fun _ _ => none) (fun _ => none)
      { html := some "AB1 product page".toList
        sourceUrl := "https://c6.example/x".toList
        mpn := "AB-1".toList }
      (some { tables := [[["Volt".toList, "230".toList],
                          ["Amp".toList, "10".toList],
                          ["Hz".toList, "50".toList]]] })).reason = none := by
  norm_num +decide [extractFromHtml, extractCore, qualityGate, looksLikeChallenge,
    looksLikeDistributor, extractSpecs, extractDatasheets, extractImages,
    dedupeAndSort, dedupeByUrl, sortDescScored, objSet, objGet, cleanText,
    collapseWs, collapseWsF, jsTrim, jsLower, optTruthy, jsOrStr,
    stripDashSpace, promoteSpecsFromText, joinSp, anywhere, anywherePrev,
    rx120At, rxPhaseAt, rx200At, rxDownlineAt, rxSurgeAt, ciStarts,
    dropTrailingColon, List.foldl, List.filterMap, List.filter, List.find?]

/-- C6 (amended): for inputs that pass the guardrails, the extractor
returns `ok = false` with reason `low_quality` exactly when the quality
score is strictly below `0.30`; a score of exactly `0.30` (e.g. specs
only) therefore yields `ok = true`.  The `0.30` floor is a strict
less-than test. -/
theorem C6_quality_floor_amended
    (resolve : Str → Str → Option Str) (uriDecode : Str → Option Str)
    (args : ExtractArgs) (dom : DomView) (html : Str)
    (h1 : args.html = some html) (h2 : ¬ html = [])
    (h3 : ¬ (html.length < 12000 ∧ looksLikeChallenge (jsLower html) = true))
    (h4 : containsSub (stripDashSpace (jsLower html))
            (jsLower (stripDashSpace args.mpn)) = true ∨
          looksLikeDistributor args.sourceUrl = true) :
    ∃ q, (extractFromHtml resolve uriDecode args (some dom)).qualityScore = some q ∧
      (q < 30/100 →
        (extractFromHtml resolve uriDecode args (some dom)).ok = false ∧
        (extractFromHtml resolve uriDecode args (some dom)).reason
          = some .low_quality) ∧
      (30/100 ≤ q →
        (extractFromHtml resolve uriDecode args (some dom)).ok = true ∧
        (extractFromHtml resolve uriDecode args (some dom)).reason = none) := by
  rw [extract_guardrails_pass resolve uriDecode args dom html h1 h2 h3 h4]
  exact extractCore_quality_gate resolve uriDecode args html dom

/-- C6 witness: the amended theorem applied at the specs-only page,
whose score is exactly `0.30`, yields `ok = true`. -/
theorem C6_quality_floor_amended_witness :
    (extractFromHtml (fun _ _ => none) (fun _ => none)
      { html := some "AB1 product page".toList
        sourceUrl := "https://c6.example/x".toList
        mpn := "AB-1".toList }
      (some { tables := [[["Volt".toList, "230".toList],
                          ["Amp".toList, "10".toList],
                          ["Hz".toList, "50".toList]]] })).ok = true := by
  have hqv : (extractFromHtml (fun _ _ => none) (fun _ => none)
      { html := some "AB1 product page".toList
        sourceUrl := "https://c6.example/x".toList
        mpn := "AB-1".toList }
      (some { tables := [[["Volt".toList, "230".toList],
                          ["Amp".toList, "10".toList],
                          ["Hz".toList, "50".toList]]] })).qualityScore
        = some (30/100) := by
    norm_num +decide [extractFromHtml, extractCore, qualityGate, looksLikeChallenge,
      looksLikeDistributor, extractSpecs, extractDatasheets, extractImages,
      dedupeAndSort, dedupeByUrl, sortDescScored, objSet, objGet, cleanText,
      collapseWs, collapseWsF, jsTrim, jsLower, optTruthy, jsOrStr,
      stripDashSpace, promoteSpecsFromText, joinSp, anywhere, anywherePrev,
      rx120At, rxPhaseAt, rx200At, rxDownlineAt, rxSurgeAt, ciStarts,
      dropTrailingColon, List.foldl, List.filterMap, List.filter, List.find?]
  obtain ⟨q, hq, _, hge⟩ :=
    C6_quality_floor_amended (fun _ _ => none) (fun _ => none)
      { html := some "AB1 product page".toList
        sourceUrl := "https://c6.example/x".toList
        mpn := "AB-1".toList }
      { tables := [[["Volt".toList, "230".toList],
                    ["Amp".toList, "10".toList],
                    ["Hz".toList, "50".toList]]] }
      "AB1 product page".toList rfl (by decide) (by decide)
      (Or.inl (by decide))
  rw [hqv] at hq
  exact (hge (by rw [Option.some_inj] at hq; rw [← hq])).1


/-- C2 counterexample: the synthesizer accepts an LLM output whose key
feature `"Bogus: 42"` has a label absent from the input specs map, and
that feature survives to the returned `SynthesisOutput` untouched —
`validateAgainstInput` does not filter key features by label. -/
theorem C2_key_feature_label_counterexample :
    ∃ out,
      synthesizeProductContent
        (.ok (Json.obj
          [("keyFeatures".toList, Json.arr [Json.str "Bogus: 42".toList]),
           ("overview".toList, Json.str "Has an overview.".toList),
           ("shortDescription".toList, Json.str "Short.".toList),
           ("longDescription".toList, Json.str "Long.".toList),
           ("bulletHighlights".toList, Json.arr [Json.str "B: x".toList]),
           ("seoDescription".toList, Json.str "Seo.".toList),
           ("disclaimers".toList, Json.arr [])]))
        { mpn := "M2-77".toList
          manufacturer := "Mfr2".toList
          canonicalTitle := "Mfr2 M2-77".toList
          specs := [("A".toList, "1".toList)]
          images := []
          datasheets := []
          verbatimDescriptors := [] } = .ok out ∧
      out.keyFeatures = ["Bogus: 42".toList] ∧
      objGet [(("A".toList : Str), ("1".toList : Str))] "Bogus".toList = none := by
  refine ⟨_, rfl, ?_, by decide⟩
  norm_num +decide [synthesizeProductContent, normalizeSynthesisOutput,
    validateAgainstInput, strArrClean, jsToString, jsTrim, jArrField, jget,
    jStrField, setOfList, setAdd, joinWith, stripFeatureLabel]

/-- C2 (amended): `validateAgainstInput` returns the key features of the
normalized LLM output unchanged — it enforces no invariant on feature
labels (`filteredKeyFeatures` is `output.keyFeatures`, and the vestigial
`keyFeaturesChanged` flag is constantly false); a key feature whose
label is outside the input specs map survives. -/
theorem C2_validate_passes_key_features_through
    (input : SynthesisInput) (output : SynthesisOutput) :
    (validateAgainstInput input output).keyFeatures = output.keyFeatures := rfl


/-- `objSet` then `objGet` at the same key. -/
theorem objGet_objSet_self (k : Str) (v : α) (m : List (Str × α)) :
    objGet (objSet k v m) k = some v := by
  induction m with
  | nil =>
    simp only [objSet, objGet]
    rw [List.find?_cons_of_pos _ (by simp)]
    rfl
  | cons hd t ih =>
    simp only [objSet]
    by_cases hk : hd.1 = k
    · rw [if_pos hk]
      simp only [objGet]
      rw [List.find?_cons_of_pos _ (by simp)]
      rfl
    · rw [if_neg hk]
      simp only [objGet] at ih ⊢
      rw [List.find?_cons_of_neg _ (by simpa using hk)]
      exact ih

/-- `objSet` leaves other keys unchanged. -/
theorem objGet_objSet_ne (k k' : Str) (v : α) (m : List (Str × α))
    (h : k' ≠ k) : objGet (objSet k v m) k' = objGet m k' := by
  induction m with
  | nil =>
    simp only [objSet, objGet]
    rw [List.find?_cons_of_neg _ (by simpa using Ne.symm h)]
  | cons hd t ih =>
    simp only [objSet]
    by_cases hk : hd.1 = k
    · rw [if_pos hk]
      simp only [objGet]
      rw [List.find?_cons_of_neg _ (by simpa using Ne.symm h),
        List.find?_cons_of_neg _ (by rw [hk]; simpa using Ne.symm h)]
    · rw [if_neg hk]
      simp only [objGet] at ih ⊢
      by_cases hk' : hd.1 = k'
      · rw [List.find?_cons_of_pos _ (by simpa using hk'),
          List.find?_cons_of_pos _ (by simpa using hk')]
      · rw [List.find?_cons_of_neg _ (by simpa using hk'),
          List.find?_cons_of_neg _ (by simpa using hk')]
        exact ih

/-- A product untouched by the datasheet preprocessing (not a
datasheet-typed product with a truthy `rawDatasheet`) is returned
unchanged: the mutation only fires on that shape. -/
theorem preprocessDatasheet_id (p : ExtractedProduct)
    (h : ¬ (p.sourceType = SourceType.datasheet ∧
            ∃ raw, p.rawDatasheet = some raw ∧ jTruthy raw = true)) :
    preprocessDatasheet p = p := by
  unfold preprocessDatasheet
  cases hr : p.rawDatasheet with
  | none => rfl
  | some raw =>
    dsimp only
    rw [if_neg]
    rintro ⟨h1, h2⟩
    exact h ⟨h1, raw, hr, h2⟩

/-- C4 counterexample: `normalizeProducts`, called twice on the same
(datasheet-typed, `rawDatasheet`-carrying) product list, returns
different `NormalizedProduct`s: the in-place preprocessing pushed the
datasheet "Overview" verbatim section onto the caller's object during
the first call, and the second call pushes it again, duplicating it. -/
theorem C4_normalize_twice_counterexample :
    ∃ cl1 out1 cl2 out2,
      normalizeProducts none
        [{ mpn := "M4-9".toList
           manufacturer := "Mfr4".toList
           sourceUrl := "datasheet:M4-9".toList
           sourceType := .datasheet
           confidence := 9/10
           specs := []
           rawDatasheet := some (Json.obj
             [("marketing_overview".toList,
               Json.str "Great product overview text.".toList)]) }] none
        = .ok (cl1, out1) ∧
      normalizeProducts none cl1 none = .ok (cl2, out2) ∧
      out1.verbatimSections.length = 1 ∧
      out2.verbatimSections.length = 2 := by
  refine ⟨_, _, _, _, rfl, rfl, by decide, by decide⟩

/-- C4 (amended): `normalizeProducts` is idempotent on lists containing
no datasheet-typed product with a (truthy) `rawDatasheet` blob: for such
lists the in-place preprocessing is the identity, the caller's list is
unchanged, and a second call returns the identical `NormalizedProduct`
(the disk-injected datasheet product, when present, is rebuilt fresh
each call and never aliased by the caller). -/
theorem C4_normalize_twice_amended
    (fsO : Option (Option Json)) (products : List ExtractedProduct)
    (mpnOpt : Option Str) (cl : List ExtractedProduct) (out : NormalizedProduct)
    (hds : ∀ p ∈ products, ¬ (p.sourceType = SourceType.datasheet ∧
             ∃ raw, p.rawDatasheet = some raw ∧ jTruthy raw = true))
    (h : normalizeProducts fsO products mpnOpt = .ok (cl, out)) :
    cl = products ∧ normalizeProducts fsO cl mpnOpt = .ok (cl, out) := by
  have hmapAll : ∀ l : List ExtractedProduct,
      (∀ p ∈ l, ¬ (p.sourceType = SourceType.datasheet ∧
        ∃ raw, p.rawDatasheet = some raw ∧ jTruthy raw = true)) →
      l.map preprocessDatasheet = l := by
    intro l
    induction l with
    | nil => intro _; rfl
    | cons hd t ih =>
      intro hl
      simp only [List.map_cons]
      rw [preprocessDatasheet_id hd (hl hd (by simp)),
        ih (fun p hp => hl p (by simp [hp]))]
  have hmap : products.map preprocessDatasheet = products := hmapAll products hds
  have hcl : cl = products := by
    unfold normalizeProducts at h
    cases products with
    | nil => cases h
    | cons bp t =>
      rcases hfs : (if (bp :: t).any (fun p => p.sourceType = SourceType.datasheet)
          then (none : Option (Option Json)) else fsO) with _ | ⟨_ | raw⟩
      · rw [hfs] at h
        injection h with h'
        injection h' with h1 _
        rw [← h1, hmap]
      · rw [hfs] at h
        cases h
      · rw [hfs] at h
        injection h with h'
        injection h' with h1 _
        rw [← h1, hmap]
  refine ⟨hcl, ?_⟩
  rw [hcl] at h
  rw [hcl]
  exact h

/-- C4 witness: the amended theorem applied to a one-element distributor
list. -/
theorem C4_normalize_twice_amended_witness :
    ∃ cl out,
      normalizeProducts none
        [{ mpn := "W4-1".toList
           manufacturer := "MfrW".toList
           sourceUrl := "https://w4.example/p".toList
           sourceType := .distributor
           confidence := 1/2
           specs := [("Volt".toList, "230".toList)] }] none = .ok (cl, out) ∧
      cl = [{ mpn := "W4-1".toList
              manufacturer := "MfrW".toList
              sourceUrl := "https://w4.example/p".toList
              sourceType := .distributor
              confidence := 1/2
              specs := [("Volt".toList, "230".toList)] }] ∧
      normalizeProducts none cl none = .ok (cl, out) := by
  obtain ⟨hcl, hsecond⟩ :=
    C4_normalize_twice_amended none
      [{ mpn := "W4-1".toList
         manufacturer := "MfrW".toList
         sourceUrl := "https://w4.example/p".toList
         sourceType := .distributor
         confidence := 1/2
         specs := [("Volt".toList, "230".toList)] }] none _ _
      (by rintro p hp ⟨h1, _⟩
          simp only [List.mem_singleton] at hp
          rw [hp] at h1
          cases h1)
      rfl
  exact ⟨_, _, rfl, hcl, hsecond⟩

/-- One merge step on a key that already has an entry: the result is an
update of that key whose confidence is the maximum of the old and
incoming confidences, whose sources grow by (at most) the incoming
source, and whose value comes from whichever side holds the maximum. -/
theorem evStep_existing (m : List (Str × NormSpecEntry)) (ev : SpecEvent)
    (e0 : NormSpecEntry) (hval : ¬ ev.value = [])
    (hget : objGet m (canonSpecKey ev.key) = some e0) :
    ∃ e2, evStep m ev = objSet (canonSpecKey ev.key) e2 m ∧
      e0.confidence ≤ e2.confidence ∧
      ev.conf ≤ e2.confidence ∧
      (∀ s ∈ e0.sources, s ∈ e2.sources) ∧
      ev.src ∈ e2.sources ∧
      ((e2.value = ev.value ∧ e2.confidence = ev.conf) ∨
       (e2.value = e0.value ∧ e2.confidence = e0.confidence)) := by
  unfold evStep
  rw [if_neg hval]
  dsimp only
  rw [hget]
  dsimp only
  by_cases hlt : e0.confidence < ev.conf
  · rw [if_pos hlt]
    dsimp only
    by_cases hsrc : ev.src ∈ e0.sources
    · rw [if_pos hsrc]
      exact ⟨_, rfl, le_of_lt hlt, le_refl _, fun s hs => hs, hsrc,
        Or.inl ⟨rfl, rfl⟩⟩
    · rw [if_neg hsrc]
      exact ⟨_, rfl, le_of_lt hlt, le_refl _,
        fun s hs => List.mem_append_left _ hs,
        List.mem_append_right _ (List.mem_singleton_self _),
        Or.inl ⟨rfl, rfl⟩⟩
  · rw [if_neg hlt]
    by_cases hsrc : ev.src ∈ e0.sources
    · rw [if_pos hsrc]
      exact ⟨_, rfl, le_refl _, le_of_not_lt hlt, fun s hs => hs, hsrc,
        Or.inr ⟨rfl, rfl⟩⟩
    · rw [if_neg hsrc]
      exact ⟨_, rfl, le_refl _, le_of_not_lt hlt,
        fun s hs => List.mem_append_left _ hs,
        List.mem_append_right _ (List.mem_singleton_self _),
        Or.inr ⟨rfl, rfl⟩⟩

/-- One merge step on a fresh key inserts the incoming entry. -/
theorem evStep_fresh (m : List (Str × NormSpecEntry)) (ev : SpecEvent)
    (hval : ¬ ev.value = [])
    (hget : objGet m (canonSpecKey ev.key) = none) :
    evStep m ev = objSet (canonSpecKey ev.key)
      { value := ev.value, sources := [ev.src], confidence := ev.conf } m := by
  unfold evStep
  rw [if_neg hval]
  dsimp only
  rw [hget]

/-- One merge step with an empty value is a no-op. -/
theorem evStep_empty (m : List (Str × NormSpecEntry)) (ev : SpecEvent)
    (hval : ev.value = []) : evStep m ev = m := by
  unfold evStep
  rw [if_pos hval]

/-- The central invariant of the spec merge, proved over the flat event
list: every stored entry's confidence is the running maximum of the
contributing confidences, its value was written by a contributor
attaining that maximum, and its sources contain every contributor's
source; moreover every contribution creates an entry. -/
theorem evFold_invariant (evs : List SpecEvent) :
    (∀ k e, objGet (evs.foldl evStep []) k = some e →
      ((∃ ev ∈ evs, (ev.value ≠ [] ∧ canonSpecKey ev.key = k) ∧
          ev.value = e.value ∧ ev.conf = e.confidence) ∧
       (∀ ev ∈ evs, ev.value ≠ [] → canonSpecKey ev.key = k →
          ev.conf ≤ e.confidence ∧ ev.src ∈ e.sources))) ∧
    (∀ k, (∃ ev ∈ evs, ev.value ≠ [] ∧ canonSpecKey ev.key = k) →
      ∃ e, objGet (evs.foldl evStep []) k = some e) := by
  induction evs using List.reverseRecOn with
  | nil =>
    constructor
    · intro k e he
      simp [objGet, List.find?] at he
    · rintro k ⟨ev, hev, _⟩
      cases hev
  | append_singleton evs ev ih =>
    obtain ⟨ih1, ih2⟩ := ih
    rw [List.foldl_append]
    simp only [List.foldl_cons, List.foldl_nil]
    by_cases hval : ev.value = []
    · rw [evStep_empty _ _ hval]
      constructor
      · intro k e he
        obtain ⟨⟨ev', hev', hc, hv, hcf⟩, hbound⟩ := ih1 k e he
        refine ⟨⟨ev', List.mem_append_left _ hev', hc, hv, hcf⟩, ?_⟩
        intro ev'' hev'' hv'' hc''
        rcases List.mem_append.mp hev'' with h' | h'
        · exact hbound ev'' h' hv'' hc''
        · rw [List.mem_singleton.mp h'] at hv''
          exact absurd hval hv''
      · rintro k ⟨ev', hev', hv', hc'⟩
        rcases List.mem_append.mp hev' with h' | h'
        · exact ih2 k ⟨ev', h', hv', hc'⟩
        · rw [List.mem_singleton.mp h'] at hv'
          exact absurd hval hv'
    · rcases hget : objGet (evs.foldl evStep []) (canonSpecKey ev.key) with _ | e0
      -- fresh key: insert
      · rw [evStep_fresh _ _ hval hget]
        constructor
        · intro k e he
          by_cases hkck : k = canonSpecKey ev.key
          · subst hkck
            rw [objGet_objSet_self] at he
            obtain rfl := Option.some.inj he
            constructor
            · exact ⟨ev, List.mem_append_right _ (List.mem_singleton_self ev),
                ⟨hval, rfl⟩, rfl, rfl⟩
            · intro ev'' hev'' hv'' hc''
              rcases List.mem_append.mp hev'' with h' | h'
              · obtain ⟨e', he'⟩ := ih2 _ ⟨ev'', h', hv'', hc''⟩
                rw [hget] at he'
                cases he'
              · rw [List.mem_singleton.mp h']
                exact ⟨le_refl _, List.mem_singleton_self _⟩
          · rw [objGet_objSet_ne _ _ _ _ hkck] at he
            obtain ⟨⟨ev', hev', hc, hv, hcf⟩, hbound⟩ := ih1 k e he
            refine ⟨⟨ev', List.mem_append_left _ hev', hc, hv, hcf⟩, ?_⟩
            intro ev'' hev'' hv'' hc''
            rcases List.mem_append.mp hev'' with h' | h'
            · exact hbound ev'' h' hv'' hc''
            · rw [List.mem_singleton.mp h'] at hc''
              exact absurd hc''.symm hkck
        · rintro k ⟨ev', hev', hv', hc'⟩
          by_cases hkck : k = canonSpecKey ev.key
          · subst hkck
            exact ⟨_, objGet_objSet_self _ _ _⟩
          · rw [objGet_objSet_ne _ _ _ _ hkck]
            rcases List.mem_append.mp hev' with h' | h'
            · exact ih2 k ⟨ev', h', hv', hc'⟩
            · rw [List.mem_singleton.mp h'] at hc'
              exact absurd hc'.symm hkck
      -- existing key: maybe replace value/confidence, union sources
      · obtain ⟨e2, heq, hce0, hcev, hsub, hsrcin, hwit⟩ :=
          evStep_existing _ ev e0 hval hget
        rw [heq]
        constructor
        · intro k e he
          by_cases hkck : k = canonSpecKey ev.key
          · subst hkck
            rw [objGet_objSet_self] at he
            obtain rfl := Option.some.inj he
            obtain ⟨⟨ev', hev', hc, hv, hcf⟩, hbound⟩ := ih1 _ e0 hget
            constructor
            · rcases hwit with ⟨hv2, hc2⟩ | ⟨hv2, hc2⟩
              · exact ⟨ev, List.mem_append_right _ (List.mem_singleton_self ev),
                  ⟨hval, rfl⟩, hv2.symm, hc2.symm⟩
              · exact ⟨ev', List.mem_append_left _ hev', hc,
                  hv.trans hv2.symm, hcf.trans hc2.symm⟩
            · intro ev'' hev'' hv'' hc''
              rcases List.mem_append.mp hev'' with h' | h'
              · obtain ⟨hle, hmem⟩ := hbound ev'' h' hv'' hc''
                exact ⟨le_trans hle hce0, hsub _ hmem⟩
              · rw [List.mem_singleton.mp h']
                exact ⟨hcev, hsrcin⟩
          · rw [objGet_objSet_ne _ _ _ _ hkck] at he
            obtain ⟨⟨ev', hev', hc, hv, hcf⟩, hbound⟩ := ih1 k e he
            refine ⟨⟨ev', List.mem_append_left _ hev', hc, hv, hcf⟩, ?_⟩
            intro ev'' hev'' hv'' hc''
            rcases List.mem_append.mp hev'' with h' | h'
            · exact hbound ev'' h' hv'' hc''
            · rw [List.mem_singleton.mp h'] at hc''
              exact absurd hc''.symm hkck
        · rintro k ⟨ev', hev', hv', hc'⟩
          by_cases hkck : k = canonSpecKey ev.key
          · subst hkck
            exact ⟨_, objGet_objSet_self _ _ _⟩
          · rw [objGet_objSet_ne _ _ _ _ hkck]
            rcases List.mem_append.mp hev' with h' | h'
            · exact ih2 k ⟨ev', h', hv', hc'⟩
            · rw [List.mem_singleton.mp h'] at hc'
              exact absurd hc'.symm hkck

/-- The nested merge loop equals the fold over the flat event list. -/
theorem mergeSpecs_eq_evFold (ps : List ExtractedProduct) :
    mergeSpecs ps = (specEvents ps).foldl evStep [] := by
  unfold mergeSpecs specEvents
  rw [List.foldl_flatten, List.foldl_map]
  congr 1
  funext m p
  rw [List.foldl_map]
  rfl

/-- Event membership in terms of products and their spec entries. -/
theorem mem_specEvents (ps : List ExtractedProduct) (ev : SpecEvent) :
    ev ∈ specEvents ps ↔
      ∃ p ∈ ps, ∃ kv ∈ p.specs,
        ev = { src := p.sourceUrl, conf := p.confidence,
               key := kv.1, value := kv.2 } := by
  simp only [specEvents, List.mem_flatten, List.mem_map]
  constructor
  · rintro ⟨l, ⟨p, hp, rfl⟩, hev⟩
    obtain ⟨kv, hkv, rfl⟩ := List.mem_map.mp hev
    exact ⟨p, hp, kv, hkv, rfl⟩
  · rintro ⟨p, hp, kv, hkv, rfl⟩
    exact ⟨_, ⟨p, hp, rfl⟩, List.mem_map_of_mem _ hkv⟩

/-- C3 counterexample: with an effective MPN ending in `RA`, the variant
overlay overwrites the merged `Remote Alarm` entry with
`{value: "Yes", sources: ["variant:RA"], confidence: 0.95}`, discarding
a contributing source of strictly higher confidence (0.99), its value
(`"No"`), and its source URL — so the stored confidence is *not* the
maximum of contributing source confidences, and the sources list does
*not* retain the contributing product's URL. -/
theorem C3_ra_overlay_counterexample :
    ∃ cl out,
      normalizeProducts none
        [{ mpn := "QRA".toList
           manufacturer := "MfrQ".toList
           sourceUrl := "https://c3.example/p".toList
           sourceType := .distributor
           confidence := 99/100
           specs := [("Remote Alarm".toList, "No".toList)] }] none
        = .ok (cl, out) ∧
      objGet out.specs "Remote Alarm".toList =
        some { value := "Yes".toList
               sources := ["variant:RA".toList]
               confidence := 95/100 } ∧
      ¬ ((99:ℚ)/100 ≤ 95/100) ∧
      "https://c3.example/p".toList ∉ (["variant:RA".toList] : List Str) ∧
      ("No".toList : Str) ≠ "Yes".toList :=
  ⟨_, _, rfl, rfl, by norm_num, by decide, by decide⟩

/-- C3 (amended): for every spec key of the returned
`NormalizedProduct` *except* the `Remote Alarm` key injected by the RA
variant overlay, the stored confidence is the maximum of the
confidences of the working-list products (after datasheet injection and
preprocessing) that contributed a value for the key after alias
canonicalization, the retained value was written by a contributor
attaining that maximum, and the sources list contains every
contributor's source URL. -/
theorem C3_spec_merge_confidence_amended
    (fsO : Option (Option Json)) (products : List ExtractedProduct)
    (mpnOpt : Option Str) (cl : List ExtractedProduct)
    (out : NormalizedProduct)
    (h : normalizeProducts fsO products mpnOpt = .ok (cl, out))
    (k : Str) (e : NormSpecEntry) (hk : objGet out.specs k = some e)
    (hnotRA : ¬ (endsW out.mpn "RA".toList = true ∧ k = "Remote Alarm".toList)) :
    (∃ p ∈ normWorkList fsO products, ∃ kv ∈ p.specs,
       kv.2 ≠ [] ∧ canonSpecKey kv.1 = k ∧ kv.2 = e.value ∧
       p.confidence = e.confidence) ∧
    (∀ p ∈ normWorkList fsO products, ∀ kv ∈ p.specs,
       kv.2 ≠ [] → canonSpecKey kv.1 = k →
       p.confidence ≤ e.confidence ∧ p.sourceUrl ∈ e.sources) := by
  have hout : out = buildNormalized (normWorkList fsO products) mpnOpt := by
    unfold normalizeProducts at h
    cases products with
    | nil => cases h
    | cons bp t =>
      rcases hfs : (if (bp :: t).any (fun p => p.sourceType = SourceType.datasheet)
          then (none : Option (Option Json)) else fsO) with _ | ⟨_ | raw⟩
      · rw [hfs] at h
        injection h with h'
        injection h' with _ h2
        exact h2.symm
      · rw [hfs] at h
        cases h
      · rw [hfs] at h
        injection h with h'
        injection h' with _ h2
        exact h2.symm
  subst hout
  rcases hwl : normWorkList fsO products with _ | ⟨base, rest⟩
  · rw [hwl] at hk
    simp [buildNormalized, objGet, List.find?] at hk
  · rw [hwl] at hk hnotRA
    simp only [buildNormalized] at hk hnotRA
    have hmpn : (buildNormalized (base :: rest) mpnOpt).mpn =
        (mpnOpt.getD base.mpn) := by simp [buildNormalized]
    have hk' : objGet (mergeSpecs (base :: rest)) k = some e := by
      by_cases hra : endsW (mpnOpt.getD base.mpn) "RA".toList = true
      · have hkRA : k ≠ "Remote Alarm".toList := by
          intro hkeq
          exact hnotRA ⟨by simpa using hra, hkeq⟩
        rw [if_pos (by simpa using hra)] at hk
        rwa [objGet_objSet_ne _ _ _ _ hkRA] at hk
      · rwa [if_neg (by simpa using hra)] at hk
    rw [mergeSpecs_eq_evFold] at hk'
    obtain ⟨inv1, _⟩ := evFold_invariant (specEvents (base :: rest))
    obtain ⟨⟨ev, hev, ⟨hvne, hcanon⟩, hveq, hceq⟩, hbound⟩ := inv1 k e hk'
    constructor
    · obtain ⟨p, hp, kv, hkv, rfl⟩ := (mem_specEvents _ _).mp hev
      exact ⟨p, hp, kv, hkv, hvne, hcanon, hveq, hceq⟩
    · intro p hp kv hkv hne hcanon'
      exact hbound _ ((mem_specEvents _ _).mpr ⟨p, hp, kv, hkv, rfl⟩) hne hcanon'

/-- C3 witness: the amended theorem applied at a one-product list (no RA
variant) whose single spec key `Voltage` canonicalizes to
`Nominal AC Line Voltage (VRMS)`. -/
theorem C3_spec_merge_confidence_witness :
    (∃ p ∈ normWorkList none
        [{ mpn := "W3-7".toList
           manufacturer := "MfrW3".toList
           sourceUrl := "https://w3.example/p".toList
           sourceType := .distributor
           confidence := 1/2
           specs := [("Voltage".toList, "230 V".toList)] }],
       ∃ kv ∈ p.specs,
       kv.2 ≠ [] ∧
       canonSpecKey kv.1 = "Nominal AC Line Voltage (VRMS)".toList ∧
       kv.2 = ("230 V".toList : Str) ∧ p.confidence = 1/2) ∧
    (∀ p ∈ normWorkList none
        [{ mpn := "W3-7".toList
           manufacturer := "MfrW3".toList
           sourceUrl := "https://w3.example/p".toList
           sourceType := .distributor
           confidence := 1/2
           specs := [("Voltage".toList, "230 V".toList)] }],
       ∀ kv ∈ p.specs,
       kv.2 ≠ [] → canonSpecKey kv.1 = "Nominal AC Line Voltage (VRMS)".toList →
       p.confidence ≤ 1/2 ∧
       p.sourceUrl ∈ (["https://w3.example/p".toList] : List Str)) :=
  C3_spec_merge_confidence_amended none
    [{ mpn := "W3-7".toList
       manufacturer := "MfrW3".toList
       sourceUrl := "https://w3.example/p".toList
       sourceType := .distributor
       confidence := 1/2
       specs := [("Voltage".toList, "230 V".toList)] }] none _ _ rfl
    "Nominal AC Line Voltage (VRMS)".toList
    { value := "230 V".toList
      sources := ["https://w3.example/p".toList]
      confidence := 1/2 }
    rfl
    (by rintro ⟨h1, _⟩; revert h1; decide)

/-- Whatever the Gemini call returns, the post-gate result is never the
row-count error. -/
theorem pdfPostGate_ne_rowCount (r : Except Str GeminiMapped)
    (f : GeminiMapped → PdfExtractionResult) (n : Nat) :
    (match r with
     | .error e => (.error (.geminiFail e) : Except PdfErr PdfExtractionResult)
     | .ok g => .ok (f g)) ≠ .error (.rowCount n) := by
  cases r <;> simp

/-- C8: if the parsed PDF text yields fewer than 18 raw spec rows,
`extractFromPdf` throws the row-count error (carrying that count); if it
yields exactly 18 rows the gate passes and no row-count error can be
raised, whatever the model-detection and Gemini oracles do. -/
theorem C8_pdf_row_count_gate (rawText : Str) (detect : Str → List Str)
    (gemini : GeminiQuery → Except Str GeminiMapped) (pdfUrl : Str)
    (targetModel : Option Str) :
    ((pdfRawRows (normalizePdfText rawText)).length < 18 →
      extractFromPdf rawText detect gemini pdfUrl targetModel =
        .error (.rowCount (pdfRawRows (normalizePdfText rawText)).length)) ∧
    ((pdfRawRows (normalizePdfText rawText)).length = 18 →
      ∀ n, extractFromPdf rawText detect gemini pdfUrl targetModel ≠
        .error (.rowCount n)) := by
  constructor
  · intro h
    simp only [pdfRawRows] at h ⊢
    unfold extractFromPdf
    dsimp only
    rw [if_pos h]
  · intro h n hEq
    simp only [pdfRawRows] at h
    unfold extractFromPdf at hEq
    dsimp only at hEq
    rw [if_neg (by rw [h]; decide)] at hEq
    exact pdfPostGate_ne_rowCount _ _ n hEq

set_option maxRecDepth 8000 in
/-- C8 witness: a 17-row text is rejected with the row-count error; the
same text with an 18th row passes the gate (both via
`C8_pdf_row_count_gate` at concrete input). -/
theorem C8_pdf_row_count_gate_witness :
    (pdfRawRows (normalizePdfText c8Text17)).length = 17 ∧
    extractFromPdf c8Text17 (fun _ => []) (fun _ => .error "llm-off".toList)
      "https://pdf.example/ds.pdf".toList none = .error (.rowCount 17) ∧
    (pdfRawRows (normalizePdfText c8Text18)).length = 18 ∧
    (∀ n, extractFromPdf c8Text18 (fun _ => []) (fun _ => .error "llm-off".toList)
      "https://pdf.example/ds.pdf".toList none ≠ .error (.rowCount n)) := by
  have h17 : (pdfRawRows (normalizePdfText c8Text17)).length = 17 := by decide
  have h18 : (pdfRawRows (normalizePdfText c8Text18)).length = 18 := by decide
  refine ⟨h17, ?_, h18,
    (C8_pdf_row_count_gate c8Text18 (fun _ => [])
      (fun _ => .error "llm-off".toList)
      "https://pdf.example/ds.pdf".toList none).2 h18⟩
  have h' := (C8_pdf_row_count_gate c8Text17 (fun _ => [])
      (fun _ => .error "llm-off".toList)
      "https://pdf.example/ds.pdf".toList none).1
    (by rw [h17]; exact (by decide : (17 : Nat) < 18))
  rw [h17] at h'
  exact h'

/-- The RA patch does not touch `usable`, `confidence` or the breakdown,
and appends the Remote-Alarm entries. -/
theorem applyRAPatch_fields (c : Str) (f : FinalRecord) :
    (applyRAPatch c f).usable = f.usable ∧
    (applyRAPatch c f).confidence = f.confidence ∧
    (applyRAPatch c f).confidenceBreakdown = f.confidenceBreakdown ∧
    (applyRAPatch c f).displayTitle = some c ∧
    (applyRAPatch c f).keyFeatures = f.keyFeatures ++
      ["Remote Alarm: Yes".toList] ∧
    (applyRAPatch c f).specTable = f.specTable ++
      [{ name := "Remote Alarm".toList, value := "Yes".toList }] :=
  ⟨rfl, rfl, rfl, rfl, rfl, rfl⟩

/-- The completed final record decides `usable` on the unrounded blend
of its stored breakdown and stores its two-decimal rounding as
`confidence`. -/
theorem pipelineFinish_spec (c : Str) (ra : Bool) (d : DiscoveryResult)
    (cr : CrawlResult) (ex : ExtractResult) (sy : SynthesisOutput) :
    (pipelineFinish c ra d cr ex sy).usable =
      decide (65/100 ≤
        blendOf (pipelineFinish c ra d cr ex sy).confidenceBreakdown) ∧
    (pipelineFinish c ra d cr ex sy).confidence =
      round2 (blendOf (pipelineFinish c ra d cr ex sy).confidenceBreakdown) := by
  unfold pipelineFinish pipelineBase applyRAPatch blendOf
  dsimp only
  split <;> split <;> exact ⟨rfl, rfl⟩

/-- Half-up rounding to two decimals cannot take a value ≥ 0.65 below
0.65. -/
theorem round2_ge_65 (q : ℚ) (h : 65/100 ≤ q) : 65/100 ≤ round2 q := by
  unfold round2
  have h1 : (65 : ℤ) ≤ ⌊q * 100 + 1/2⌋ := by
    apply Int.le_floor.mpr
    push_cast
    linarith
  have h2 : (65 : ℚ) ≤ (⌊q * 100 + 1/2⌋ : ℚ) := by exact_mod_cast h1
  linarith

/-- With the RA flag set, a usable completed record carries the patched
display title and the appended Remote-Alarm entries. -/
theorem pipelineFinish_ra_patch (c : Str) (d : DiscoveryResult)
    (cr : CrawlResult) (ex : ExtractResult) (sy : SynthesisOutput)
    (h : (pipelineFinish c true d cr ex sy).usable = true) :
    (pipelineFinish c true d cr ex sy).displayTitle = some c ∧
    (∃ kfs, (pipelineFinish c true d cr ex sy).keyFeatures =
      kfs ++ ["Remote Alarm: Yes".toList]) ∧
    (∃ rows, (pipelineFinish c true d cr ex sy).specTable =
      rows ++ [{ name := "Remote Alarm".toList, value := "Yes".toList }]) := by
  unfold pipelineFinish at h ⊢
  dsimp only at h ⊢
  have hcond : true = true ∧ (pipelineBase d cr ex sy).usable = true := by
    constructor
    · rfl
    · by_cases hu : (pipelineBase d cr ex sy).usable = true
      · exact hu
      · rw [if_neg (fun hc => hu hc.2)] at h
        exact h
  rw [if_pos hcond]
  exact ⟨rfl, ⟨_, rfl⟩, ⟨_, rfl⟩⟩

/-- Inversion: a completed final record always is `pipelineFinish`
applied to the canonical MPN, the RA flag, and the stage outputs. -/
theorem runPipeline_final_inversion (O : PipelineOracles)
    (mpn manufacturer : Str) (r : PipelineResult) (f : FinalRecord)
    (h : runProductPipeline O mpn manufacturer = .ok r)
    (hf : r.final = .completed f) :
    ∃ d cr ex sy,
      f = pipelineFinish (canonicalizeMpn mpn)
        (endsW (canonicalizeMpn mpn) "RA".toList) d cr ex sy := by
  unfold runProductPipeline at h
  dsimp only at h
  repeat' split at h
  all_goals
    first
      | exact Except.noConfusion h
      | (injection h with h'
         subst h'
         dsimp only at hf
         first
           | exact PipelineFinal.noConfusion hf
           | exact ⟨_, _, _, _, (PipelineFinal.completed.inj hf).symm⟩)

/-- Every non-throwing pipeline run surfaces the discovery result of the
stripped lookup MPN in `result.discovery`. -/
theorem runPipeline_ok_discovery (O : PipelineOracles)
    (mpn manufacturer : Str) (r : PipelineResult)
    (h : runProductPipeline O mpn manufacturer = .ok r) :
    ∃ d, discoverProductSources O.serperO O.hostOf O.squash (lookupMpnOf mpn)
        manufacturer = .ok d ∧ r.discovery = some d := by
  unfold runProductPipeline at h
  dsimp only at h
  repeat' split at h
  all_goals
    first
      | exact Except.noConfusion h
      | (injection h with h'
         subst h'
         refine ⟨_, ?_, rfl⟩
         assumption)

/-- Decomposition: a run whose five stages produce the given outputs
returns the assembled completed result. -/
theorem runPipeline_completed_eq (O : PipelineOracles)
    (mpn manufacturer : Str) (discovery : DiscoveryResult)
    (crawl : CrawlResult) (htmlV : Str) (extraction : ExtractResult)
    (lst : List ExtractedProduct) (normalized : NormalizedProduct)
    (synthesis : SynthesisOutput)
    (hd : discoverProductSources O.serperO O.hostOf O.squash (lookupMpnOf mpn)
        manufacturer = .ok discovery)
    (hne : ¬ (discovery.primaryProductUrl.getD [] = [] ∧
        discovery.backupUrls.length = 0))
    (hc : crawlLoop O ((urlsToTry discovery).take 3) = some crawl)
    (hh : optTruthy crawl.html = some htmlV)
    (hx : extractFromHtml O.resolve O.uriDecode
        { html := crawl.html, sourceUrl := crawl.finalUrl
          mpn := lookupMpnOf mpn, manufacturer := some manufacturer }
        (O.domO htmlV) = extraction)
    (hgate : ¬ (extraction.ok = false ∨ extraction.qualityScore.getD 0 < 3/10))
    (hn : normalizeProducts O.fsO [mkPipelineProduct extraction]
        (some (canonicalizeMpn mpn)) = .ok (lst, normalized))
    (hs : synthesizeProductContent O.llm (buildSynthesisInput normalized)
        = .ok synthesis) :
    runProductPipeline O mpn manufacturer = .ok
      { mpn := canonicalizeMpn mpn, manufacturer := manufacturer
        discovery := some discovery, crawl := some crawl
        extraction := some (extractionSummaryOf extraction crawl.finalUrl)
        synthesis := some synthesis
        final := .completed
          (pipelineFinish (canonicalizeMpn mpn)
            (endsW (canonicalizeMpn mpn) "RA".toList) discovery crawl
            extraction synthesis) } := by
  unfold runProductPipeline
  dsimp only
  rw [hd]
  dsimp only
  rw [if_neg hne, hc]
  dsimp only
  rw [hh]
  dsimp only
  rw [hx, if_neg hgate, hn]
  dsimp only
  rw [hs]


/-- Stage evaluation: discovery of the C1 scenario has a single
candidate, hence confidence `high`. -/
theorem c1_disc_eq :
    discoverProductSources c1O.serperO c1O.hostOf c1O.squash
      (lookupMpnOf "AB1".toList) "MFR".toList = .ok c1Disc := by
  norm_num +decide [discoverProductSources, runSerperQuery, normalizeSerper,
    jsOrStr, scoreResults, discFeatures, b2q, extractDomain,
    bootstrapDomainTrust, isBlogOrForum, sortScoreDesc, insertScoreDesc,
    mainDiscoveryQuery, lookupMpnOf, canonicalizeMpn, dashNormF, jsUpper,
    jsLower, containsSub, startsW, endsW, jsSplitCh, c1O, c1Disc, c1UrlA,
    List.map, List.foldr, List.filter, List.take, List.sum]

/-- Stage evaluation: both Tier-1 fetches fail, the headless browser
renders a short page, and the non-product branch still returns its
html. -/
theorem c1_crawl_eq :
    crawlLoop c1O ((urlsToTry c1Disc).take 3) = some c1Crawl := by decide

/-- Stage evaluation: extraction of the C1 page yields 11 specs and one
datasheet — quality exactly 0.55. -/
theorem c1_ext_eq :
    extractFromHtml c1O.resolve c1O.uriDecode
      { html := c1Crawl.html, sourceUrl := c1Crawl.finalUrl
        mpn := lookupMpnOf "AB1".toList, manufacturer := some "MFR".toList }
      (c1O.domO c1Html) = c1Ext := by
  have hdom : c1O.domO c1Html = some c1Dom := rfl
  rw [hdom, extract_guardrails_pass c1O.resolve c1O.uriDecode _ c1Dom c1Html
    rfl (by decide) (by decide) (Or.inl (by decide))]
  norm_num +decide [extractCore, qualityGate, extractSpecs, extractDatasheets,
    extractImages, dedupeAndSort, dedupeByUrl, sortDescScored, insertDescScored,
    objSet, objGet, cleanText, collapseWs, collapseWsF, jsTrim, jsLower,
    optTruthy, jsOrStr, stripDashSpace, promoteSpecsFromText, joinSp, anywhere,
    anywherePrev, rx120At, rxPhaseAt, rx200At, rxDownlineAt, rxSurgeAt,
    ciStarts, dropTrailingColon, lookupMpnOf, canonicalizeMpn, dashNormF,
    jsUpper, c1O, c1Dom, c1Ext, c1Specs, c1UrlA, c1DsUrl, c1Crawl, c1Html,
    List.foldl, List.filterMap, List.filter, List.find?]

/-- Stage evaluation: normalization merges the 11 extracted specs at
confidence 0.55. -/
theorem c1_norm_eq :
    normalizeProducts c1O.fsO [mkPipelineProduct c1Ext]
      (some (canonicalizeMpn "AB1".toList)) =
      .ok ([mkPipelineProduct c1Ext], c1Norm) := by
  norm_num +decide [normalizeProducts, normWorkList, preprocessDatasheet,
    mkPipelineProduct, buildNormalized, mergeSpecs, mergeSpecStep, evStep,
    canonSpecKey, objGet, objSet, optTruthy, c1O, c1Ext, c1Specs, c1Norm,
    c1UrlA, c1DsUrl, canonicalizeMpn, dashNormF, jsUpper, List.foldl,
    List.map, List.find?, List.any, List.sum, List.flatten]

/-- Stage evaluation: the synthesizer matches 5 of the 11 spec labels
and adds the datasheet bonus — confidence 5/11 + 1/10 = 61/110. -/
theorem c1_synth_eq :
    synthesizeProductContent c1O.llm (buildSynthesisInput c1Norm) =
      .ok c1Synth := by
  norm_num +decide [synthesizeProductContent, buildSynthesisInput,
    normalizeSynthesisOutput, validateAgainstInput, computeContentConfidence,
    strArrClean, stripFeatureLabel, joinWith, joinSp, setAdd, setOfList,
    jStrField, jArrField, jget, jsToString, jsTrim, jsLower, objGet, c1O,
    c1Json, c1Norm, c1Synth, c1Specs, c1UrlA, c1DsUrl, min_def, List.map,
    List.filter, List.foldl, List.find?, List.findIdx?, List.take]

/-- The assembled C1 run: every stage succeeds and the final record is
`pipelineFinish` of the stage outputs. -/
theorem c1_run_eq :
    runProductPipeline c1O "AB1".toList "MFR".toList = .ok
      { mpn := canonicalizeMpn "AB1".toList
        manufacturer := "MFR".toList
        discovery := some c1Disc
        crawl := some c1Crawl
        extraction := some (extractionSummaryOf c1Ext c1Crawl.finalUrl)
        synthesis := some c1Synth
        final := .completed c1Final } :=
  runPipeline_completed_eq c1O "AB1".toList "MFR".toList c1Disc c1Crawl c1Html
    c1Ext [mkPipelineProduct c1Ext] c1Norm c1Synth c1_disc_eq (by decide)
    c1_crawl_eq rfl c1_ext_eq (by norm_num [c1Ext, Option.getD]) c1_norm_eq
    c1_synth_eq

/-- C1 counterexample: a fully completed run whose unrounded blend is
1427/2200 ≈ 0.6486 stores `usable = false` (decided on the unrounded
value) but `confidence = 0.65` (the rounded value), so the claimed
biconditional `usable ⇔ confidence ≥ 0.65` fails. -/
theorem C1_usable_confidence_counterexample :
    ∃ r, runProductPipeline c1O "AB1".toList "MFR".toList = .ok r ∧
      r.final = .completed c1Final ∧ c1Final.usable = false ∧
      c1Final.confidence = 65/100 ∧
      ¬ (c1Final.usable = true ↔ 65/100 ≤ c1Final.confidence) := by
  have hu : c1Final.usable = false := by
    norm_num +decide [c1Final, pipelineFinish, pipelineBase, applyRAPatch,
      discoveryConfQ, round2, c1Disc, c1Crawl, c1Ext, c1Synth, canonicalizeMpn,
      dashNormF, jsUpper, Option.getD, decide_eq_false_iff_not,
      decide_eq_true_eq]
  have hc : c1Final.confidence = 65/100 := by
    norm_num +decide [c1Final, pipelineFinish, pipelineBase, applyRAPatch,
      discoveryConfQ, round2, c1Disc, c1Crawl, c1Ext, c1Synth, canonicalizeMpn,
      dashNormF, jsUpper, Option.getD, decide_eq_false_iff_not,
      decide_eq_true_eq]
  exact ⟨_, c1_run_eq, rfl, hu, hc, by rw [hu, hc]; norm_num⟩

/-- C1 (amended): for every completed pipeline run, `usable` is decided
by the *unrounded* blend `0.25·discovery + 0.20·crawl + 0.30·extraction
+ 0.25·synthesis` of the stored breakdown, and `confidence` is that
blend rounded half-up to two decimals; `usable = true` still implies
`confidence ≥ 0.65`, but the stored rounded confidence can reach 0.65
while `usable` is false. -/
theorem C1_usable_confidence_amended (O : PipelineOracles)
    (mpn manufacturer : Str) (r : PipelineResult) (f : FinalRecord)
    (h : runProductPipeline O mpn manufacturer = .ok r)
    (hf : r.final = .completed f) :
    f.usable = decide (65/100 ≤ blendOf f.confidenceBreakdown) ∧
    f.confidence = round2 (blendOf f.confidenceBreakdown) ∧
    (f.usable = true → 65/100 ≤ f.confidence) := by
  obtain ⟨d, cr, ex, sy, rfl⟩ :=
    runPipeline_final_inversion O mpn manufacturer r f h hf
  obtain ⟨hu, hc⟩ := pipelineFinish_spec (canonicalizeMpn mpn)
    (endsW (canonicalizeMpn mpn) "RA".toList) d cr ex sy
  refine ⟨hu, hc, fun husable => ?_⟩
  rw [hc]
  exact round2_ge_65 _ (of_decide_eq_true (hu ▸ husable))

/-- C1 witness: the amended theorem applied at the concrete completed
run of the counterexample scenario. -/
theorem C1_usable_confidence_amended_witness :
    ∃ r f, runProductPipeline c1O "AB1".toList "MFR".toList = .ok r ∧
      r.final = .completed f ∧
      f.usable = decide (65/100 ≤ blendOf f.confidenceBreakdown) ∧
      f.confidence = round2 (blendOf f.confidenceBreakdown) ∧
      (f.usable = true → 65/100 ≤ f.confidence) := by
  obtain ⟨h1, h2, h3⟩ := C1_usable_confidence_amended c1O "AB1".toList
    "MFR".toList _ c1Final c1_run_eq rfl
  exact ⟨_, c1Final, c1_run_eq, rfl, h1, h2, h3⟩

/-- Stage evaluation: C10 discovery (single candidate, `high`) for the
stripped lookup MPN `AB1E`. -/
theorem c10_disc_eq :
    discoverProductSources c10O.serperO c10O.hostOf c10O.squash
      (lookupMpnOf "AB1ERA".toList) "MFR".toList = .ok c10Disc := by
  norm_num +decide [discoverProductSources, runSerperQuery, normalizeSerper,
    jsOrStr, scoreResults, discFeatures, b2q, extractDomain,
    bootstrapDomainTrust, isBlogOrForum, sortScoreDesc, insertScoreDesc,
    mainDiscoveryQuery, lookupMpnOf, canonicalizeMpn, dashNormF, jsUpper,
    jsLower, containsSub, startsW, endsW, jsSplitCh, c10O, c10Disc, c10UrlA,
    List.map, List.foldr, List.filter, List.take, List.sum]

/-- Stage evaluation: C10 crawl falls back to the headless browser,
which returns the short page via the non-product branch. -/
theorem c10_crawl_eq :
    crawlLoop c10O ((urlsToTry c10Disc).take 3) = some c10Crawl := by decide

/-- Stage evaluation: C10 extraction (11 specs + datasheet, quality
0.55) under the stripped MPN `AB1E`. -/
theorem c10_ext_eq :
    extractFromHtml c10O.resolve c10O.uriDecode
      { html := c10Crawl.html, sourceUrl := c10Crawl.finalUrl
        mpn := lookupMpnOf "AB1ERA".toList
        manufacturer := some "MFR".toList }
      (c10O.domO c10Html) = c10Ext := by
  have hdom : c10O.domO c10Html = some c10Dom := rfl
  rw [hdom, extract_guardrails_pass c10O.resolve c10O.uriDecode _ c10Dom
    c10Html rfl (by decide) (by decide) (Or.inl (by decide))]
  norm_num +decide [extractCore, qualityGate, extractSpecs, extractDatasheets,
    extractImages, dedupeAndSort, dedupeByUrl, sortDescScored, insertDescScored,
    objSet, objGet, cleanText, collapseWs, collapseWsF, jsTrim, jsLower,
    optTruthy, jsOrStr, stripDashSpace, promoteSpecsFromText, joinSp, anywhere,
    anywherePrev, rx120At, rxPhaseAt, rx200At, rxDownlineAt, rxSurgeAt,
    ciStarts, dropTrailingColon, lookupMpnOf, canonicalizeMpn, dashNormF,
    jsUpper, c10O, c10Dom, c10Ext, c1Specs, c10UrlA, c1DsUrl, c10Crawl,
    c10Html, List.foldl, List.filterMap, List.filter, List.find?]

/-- Stage evaluation: C10 normalization — the canonical MPN `AB1ERA`
ends in RA, so the Remote-Alarm overlay and Variant section are
injected. -/
theorem c10_norm_eq :
    normalizeProducts c10O.fsO [mkPipelineProduct c10Ext]
      (some (canonicalizeMpn "AB1ERA".toList)) =
      .ok ([mkPipelineProduct c10Ext], c10Norm) := by
  norm_num +decide [normalizeProducts, normWorkList, preprocessDatasheet,
    mkPipelineProduct, buildNormalized, mergeSpecs, mergeSpecStep, evStep,
    canonSpecKey, objGet, objSet, optTruthy, c10O, c10Ext, c1Specs, c10Norm,
    c10UrlA, c1DsUrl, canonicalizeMpn, dashNormF, jsUpper, List.foldl,
    List.map, List.find?, List.any, List.sum, List.flatten]

set_option maxRecDepth 8000 in
/-- Stage evaluation: C10 synthesis — 11 of 12 labels matched plus the
datasheet bonus caps at 0.85. -/
theorem c10_synth_eq :
    synthesizeProductContent c10O.llm (buildSynthesisInput c10Norm) =
      .ok c10Synth := by
  norm_num +decide [synthesizeProductContent, buildSynthesisInput,
    normalizeSynthesisOutput, validateAgainstInput, computeContentConfidence,
    strArrClean, stripFeatureLabel, joinWith, joinSp, setAdd, setOfList,
    jStrField, jArrField, jget, jsToString, jsTrim, jsLower, objGet, c10O,
    c10Json, c10Norm, c10Synth, c1Specs, c10UrlA, c1DsUrl, min_def, List.map,
    List.filter, List.foldl, List.find?, List.findIdx?, List.take]

/-- The assembled C10 run. -/
theorem c10_run_eq :
    runProductPipeline c10O "AB1ERA".toList "MFR".toList = .ok
      { mpn := canonicalizeMpn "AB1ERA".toList
        manufacturer := "MFR".toList
        discovery := some c10Disc
        crawl := some c10Crawl
        extraction := some (extractionSummaryOf c10Ext c10Crawl.finalUrl)
        synthesis := some c10Synth
        final := .completed c10Final } :=
  runPipeline_completed_eq c10O "AB1ERA".toList "MFR".toList c10Disc c10Crawl
    c10Html c10Ext [mkPipelineProduct c10Ext] c10Norm c10Synth c10_disc_eq
    (by decide) c10_crawl_eq rfl c10_ext_eq (by norm_num [c10Ext, Option.getD])
    c10_norm_eq c10_synth_eq

/-- C10: every MPN whose canonicalized form ends in the two letters
`RA` is treated as a Remote-Alarm variant: the MPN handed to discovery
(and extraction) is the canonical MPN with its final two characters
stripped, and on every completed usable run the post-synthesis RA patch
is applied — display title overwritten with the canonical MPN, and
`Remote Alarm: Yes` appended to `keyFeatures` and to `specTable`. -/
theorem C10_ra_variant_handling (mpn : Str)
    (h : endsW (canonicalizeMpn mpn) "RA".toList = true) :
    lookupMpnOf mpn =
      (canonicalizeMpn mpn).take ((canonicalizeMpn mpn).length - 2) ∧
    (∀ O manufacturer r, runProductPipeline O mpn manufacturer = .ok r →
      ∃ d, discoverProductSources O.serperO O.hostOf O.squash (lookupMpnOf mpn)
          manufacturer = .ok d ∧ r.discovery = some d) ∧
    (∀ O manufacturer r f, runProductPipeline O mpn manufacturer = .ok r →
      r.final = .completed f → f.usable = true →
      f.displayTitle = some (canonicalizeMpn mpn) ∧
      (∃ kfs, f.keyFeatures = kfs ++ ["Remote Alarm: Yes".toList]) ∧
      (∃ rows, f.specTable = rows ++
        [{ name := "Remote Alarm".toList, value := "Yes".toList }])) := by
  refine ⟨?_, ?_, ?_⟩
  · unfold lookupMpnOf
    dsimp only
    rw [if_pos h]
  · intro O manufacturer r hr
    exact runPipeline_ok_discovery O mpn manufacturer r hr
  · intro O manufacturer r f hr hf husable
    obtain ⟨d, cr, ex, sy, rfl⟩ :=
      runPipeline_final_inversion O mpn manufacturer r f hr hf
    rw [h] at husable ⊢
    exact pipelineFinish_ra_patch (canonicalizeMpn mpn) d cr ex sy husable

set_option maxRecDepth 8000 in
/-- C10 witness: the MPN `AB1ERA` (where `RA` is not a separate token)
is canonicalized, stripped to `AB1E` for lookup, and its usable
completed run carries the RA patch. -/
theorem C10_ra_variant_handling_witness :
    endsW (canonicalizeMpn "AB1ERA".toList) "RA".toList = true ∧
    lookupMpnOf "AB1ERA".toList = "AB1E".toList ∧
    (∃ r f, runProductPipeline c10O "AB1ERA".toList "MFR".toList = .ok r ∧
      r.final = .completed f ∧ f.usable = true ∧
      f.displayTitle = some (canonicalizeMpn "AB1ERA".toList) ∧
      (∃ kfs, f.keyFeatures = kfs ++ ["Remote Alarm: Yes".toList]) ∧
      (∃ rows, f.specTable = rows ++
        [{ name := "Remote Alarm".toList, value := "Yes".toList }])) := by
  have hra : endsW (canonicalizeMpn "AB1ERA".toList) "RA".toList = true := by
    decide
  obtain ⟨h1, _, h3⟩ := C10_ra_variant_handling "AB1ERA".toList hra
  have husable : c10Final.usable = true := by
    norm_num +decide [c10Final, pipelineFinish, pipelineBase, applyRAPatch,
      discoveryConfQ, round2, c10Disc, c10Crawl, c10Ext, c10Synth,
      canonicalizeMpn, dashNormF, jsUpper, Option.getD, decide_eq_true_eq]
  obtain ⟨hd, hkf, hst⟩ := h3 c10O "MFR".toList _ c10Final c10_run_eq rfl
    husable
  refine ⟨hra, ?_, ⟨_, c10Final, c10_run_eq, rfl, husable, hd, hkf, hst⟩⟩
  rw [h1]
  decide

end Partly
